import Mathlib

/-
  Verification development for the glTF-Toolkit LOD merging core
  (src/glTF-Toolkit/src/GLTFLODUtils.cpp).

  The C++ code is shallowly embedded: every function of GLTFLODUtils.cpp is
  translated into an executable Lean definition.  The glTF SDK document object
  model (GLTFDocument, IndexedContainer) and rapidjson are external
  collaborators of the repository; they are modelled from the spec's interface
  description (ordered, identifier-indexed collections exposing ordered
  enumeration, get-by-identifier, append and replace-in-place; JSON payloads
  as structured values).  Extension payload strings are modelled in parsed
  form: a payload is `none` for the empty string and `some j` for a string
  whose (canonical rapidjson) JSON value is `j`; serialize/reparse
  round-tripping of rapidjson is the identity on this representation.
  Failure paths of the C++ (thrown exceptions, failed lookups, and rapidjson
  assertion failures on type mismatches) are modelled with `Except`.
-/

namespace GLTF

/-- Failure modes of the merge core (C++ exceptions / assertion failures). -/
inductive MergeError where
  | topologyMismatch
  | malformedIdentifier
  | lookupFailure
  | unsupportedEntityKind
  | emptyInput
  | jsonTypeError
  | jsonParseError
  | outOfBounds
  deriving DecidableEq

/-- JSON values (the rapidjson document model).  Integer-valued numbers are
`jnum`; other numerics (the screen-coverage doubles, which the code only
passes through verbatim and never computes with) are carried opaquely as
`jreal`. -/
inductive Json where
  | jnum (n : Int)
  | jreal (q : Rat)
  | jstr (s : String)
  | jbool (b : Bool)
  | jnull
  | jarr (elems : List Json)
  | jobj (fields : List (String × Json))

/-- A serialized extension payload string: `none` is the empty string,
`some j` a non-empty string parsing to the JSON value `j`. -/
abbrev Payload := Option Json

/-- Per-entity extension map (extension name to serialized payload). -/
abbrev ExtMap := List (String × Payload)

/-- The toolkit constant EXTENSION_MSFT_LOD from GLTFLODUtils.cpp. -/
def EXTENSION_MSFT_LOD : String := "MSFT_lod"

/-- The toolkit constant MSFT_LOD_IDS_KEY from GLTFLODUtils.cpp. -/
def MSFT_LOD_IDS_KEY : String := "ids"

/-- Modelled from the spec: the name of the single-texture-reference
extension (declared in GLTFTextureCompressionUtils, which is not under
src/); only its identity matters to the merge code. -/
def EXTENSION_MSFT_TEXTURE_DDS : String := "MSFT_texture_dds"

/-- Modelled from the spec: the name of the packed-texture extension
(declared in GLTFTexturePackingUtils, which is not under src/); only its
identity matters to the merge code. -/
def EXTENSION_MSFT_PACKING_ORM : String := "MSFT_packing_occlusionRoughnessMetallic"

/-- Replace the first element satisfying `p` by its image under `f`
(in-place update of a uniquely keyed entry). -/
def setFirst {α : Type} (p : α → Bool) (f : α → α) : List α → List α
  | [] => []
  | x :: xs => if p x then f x :: xs else x :: setFirst p f xs

/-- Keyed lookup in an association list: the value of the first entry with
the given key (std::unordered_map::find / at; keys are unique in the C++
maps, so first-entry lookup is faithful). -/
def assocFind {β : Type} : List (String × β) → String → Option β
  | [], _ => none
  | kv :: m, k => if kv.1 == k then some kv.2 else assocFind m k

/-- Lookup in an extension map (std::unordered_map::find). -/
def extFind (m : ExtMap) (k : String) : Option Payload :=
  assocFind m k

/-- std::unordered_map::emplace: insert only when the key is absent. -/
def extEmplace (m : ExtMap) (k : String) (v : Payload) : ExtMap :=
  if (assocFind m k).isSome then m else m ++ [(k, v)]

/-- Overwrite the payload of an existing extension entry (assignment through
the iterator returned by find). -/
def extSet (m : ExtMap) (k : String) (v : Payload) : ExtMap :=
  setFirst (fun kv => kv.1 == k) (fun kv => (kv.1, v)) m

/-- Member lookup in a JSON object field list (rapidjson FindMember /
HasMember / operator[]). -/
def jsonObjFind (fields : List (String × Json)) (k : String) : Option Json :=
  assocFind fields k

/-- Overwrite the value of an existing JSON object member. -/
def jsonObjSet (fields : List (String × Json)) (k : String) (v : Json) :
    List (String × Json) :=
  setFirst (fun kv => kv.1 == k) (fun kv => (kv.1, v)) fields

/-- The LODMap of GLTFLODUtils: node identifier to LOD chain.  The C++ value
type is a shared pointer to a growable vector; the map is threaded
explicitly here, and the pointers are never null for maps built by this
code, so chains are stored directly. -/
abbrev LODMap := List (String × List String)

/-- std::unordered_map::at on the LODMap (throws when absent). -/
def lodAt (m : LODMap) (k : String) : Option (List String) :=
  assocFind m k

/-- std::unordered_map::emplace on the LODMap: insert only when absent. -/
def lodEmplace (m : LODMap) (k : String) (v : List String) : LODMap :=
  if (assocFind m k).isSome then m else m ++ [(k, v)]

/-- emplace_back through the shared pointer obtained by at: append one
entry to the chain of an existing key. -/
def lodAppend (m : LODMap) (k : String) (v : String) : LODMap :=
  setFirst (fun kv => kv.1 == k) (fun kv => (kv.1, kv.2 ++ [v])) m

/-- Turn a failed lookup into the corresponding thrown error. -/
def getOrErr {α : Type} (e : MergeError) : Option α → Except MergeError α
  | none => Except.error e
  | some a => Except.ok a

/-
  Entity collections.  Each structure carries exactly the fields that
  GLTFLODUtils.cpp reads or writes; all remaining glTF fields are copied
  verbatim by the merge (the clone and Append copy whole entities) and are
  omitted from the embedding.
-/

structure Buffer where
  id : String
  deriving DecidableEq

structure Sampler where
  id : String
  deriving DecidableEq

structure BufferView where
  id : String
  bufferId : String
  deriving DecidableEq

structure Accessor where
  id : String
  bufferViewId : String
  deriving DecidableEq

structure Image where
  id : String
  bufferViewId : String
  deriving DecidableEq

structure Texture where
  id : String
  samplerId : String
  imageId : String
  extensions : ExtMap

/-- Texture reference sub-objects of Material (normalTexture,
occlusionTexture), whose id field the merge offsets. -/
structure TextureInfo where
  id : String

structure PBRMetallicRoughness where
  baseColorTextureId : String
  metallicRoughnessTextureId : String

structure PBRSpecularGlossiness where
  diffuseTextureId : String
  specularGlossinessTextureId : String

structure Material where
  id : String
  name : String
  normalTexture : TextureInfo
  occlusionTexture : TextureInfo
  emissiveTextureId : String
  metallicRoughness : PBRMetallicRoughness
  specularGlossiness : PBRSpecularGlossiness
  extensions : ExtMap

structure MeshPrimitive where
  positionsAccessorId : String
  normalsAccessorId : String
  indicesAccessorId : String
  uv0AccessorId : String
  uv1AccessorId : String
  color0AccessorId : String
  materialId : String

structure Mesh where
  id : String
  name : String
  primitives : List MeshPrimitive

structure Node where
  id : String
  name : String
  meshId : String
  children : List String
  extensions : ExtMap
  extras : Option Json

structure Scene where
  id : String
  nodes : List String

/-- The document object model: ordered, identifier-indexed collections plus
the declared-extension set.  extensionsUsed is a std::set of strings; it is
modelled as a duplicate-free list (membership and cardinality faithful;
the sorted iteration order of std::set is never observed by this code). -/
structure GLTFDocument where
  buffers : List Buffer
  samplers : List Sampler
  bufferViews : List BufferView
  accessors : List Accessor
  images : List Image
  textures : List Texture
  materials : List Material
  meshes : List Mesh
  nodes : List Node
  scenes : List Scene
  extensionsUsed : List String

/-- std::set::insert - add only when not yet present. -/
def setInsert (s : List String) (x : String) : List String :=
  if s.contains x then s else s ++ [x]

/-- IndexedContainer::Get by identifier on the node collection (modelled
from the spec: get-by-identifier resolves the unique element with that id;
first match for the degenerate non-unique case). -/
def nodesGet (ns : List Node) (id : String) : Option Node :=
  ns.find? (fun n => n.id == id)

/-- IndexedContainer::GetIndex on the node collection: current positional
index of the element with the given identifier. -/
def nodesGetIndex (ns : List Node) (id : String) : Option Nat :=
  ns.findIdx? (fun n => n.id == id)

/-- IndexedContainer::GetIndex on the material collection. -/
def materialsGetIndex (ms : List Material) (id : String) : Option Nat :=
  ms.findIdx? (fun m => m.id == id)

/-- IndexedContainer::Replace on the node collection: replace the element
carrying the same identifier; throws when no such element exists. -/
def nodesReplace (ns : List Node) (n : Node) : Except MergeError (List Node) :=
  if ns.any (fun m => m.id == n.id) then
    Except.ok (setFirst (fun m => m.id == n.id) (fun _ => n) ns)
  else Except.error MergeError.lookupFailure

/-
  IndexRemapper: AddIndexOffset and its std::stoi parsing.
-/

/-- The whitespace characters skipped by std::stoi (strtol). -/
def isCppSpace (c : Char) : Bool :=
  c = ' ' || c = '\t' || c = '\n' || c = '\x0b' || c = '\x0c' || c = '\r'

/-- Decimal value of a digit run. -/
def natOfDigits (ds : List Char) : Nat :=
  ds.foldl (fun a c => a * 10 + (c.toNat - 48)) 0

/-- std::stoi, base 10: skip leading whitespace, optional sign, then the
longest digit prefix; `none` when no digit was consumed (std::stoi throws
std::invalid_argument there).  Values are unbounded here: the identifiers
this code meets are collection indices, far below the int range where
std::stoi would throw std::out_of_range. -/
def stoiCore (cs : List Char) : Option Int :=
  let cs := cs.dropWhile isCppSpace
  match cs with
  | '-' :: rest =>
      let ds := rest.takeWhile Char.isDigit
      if ds.isEmpty then none else some (-(natOfDigits ds : Int))
  | '+' :: rest =>
      let ds := rest.takeWhile Char.isDigit
      if ds.isEmpty then none else some (natOfDigits ds : Int)
  | _ =>
      let ds := cs.takeWhile Char.isDigit
      if ds.isEmpty then none else some (natOfDigits ds : Int)

/-- std::stoi on a string. -/
def stoi (s : String) : Option Int :=
  stoiCore s.data

/-- AddIndexOffset (GLTFLODUtils.cpp:28): an empty id is not in use and is
left unchanged; otherwise the id is reparsed, offset and reprinted.  The
C++ sum `std::stoi(id) + offset` is int + size_t; for the non-negative
in-range indices reachable here it equals plain integer addition, which is
used directly. -/
def AddIndexOffset (id : String) (offset : Nat) : Except MergeError String :=
  if id.isEmpty then Except.ok id
  else
    match stoi id with
    | none => Except.error MergeError.malformedIdentifier
    | some n => Except.ok (toString (n + (offset : Int)))

/-- AddIndexOffsetPacked (GLTFLODUtils.cpp:34): inside a packed-texture
payload, shift the optional `index` member of the optional member named
`textureId`.  rapidjson HasMember / GetInt assert on kind mismatches, which
is modelled as an error. -/
def AddIndexOffsetPacked (json : Json) (textureId : String) (offset : Nat) :
    Except MergeError Json :=
  match json with
  | Json.jobj fields =>
      match jsonObjFind fields textureId with
      | none => Except.ok (Json.jobj fields)
      | some (Json.jobj inner) =>
          match jsonObjFind inner "index" with
          | none => Except.ok (Json.jobj fields)
          | some (Json.jnum index) =>
              Except.ok (Json.jobj (jsonObjSet fields textureId
                (Json.jobj (jsonObjSet inner "index" (Json.jnum (index + (offset : Int)))))))
          | some _ => Except.error MergeError.jsonTypeError
      | some _ => Except.error MergeError.jsonTypeError
  | _ => Except.error MergeError.jsonTypeError

/-- Error-propagating elementwise transform: the per-collection append loops
of AddGLTFNodeLOD transform each candidate entity in order and stop at the
first thrown error. -/
def mapME {α β : Type} (f : α → Except MergeError β) : List α → Except MergeError (List β)
  | [] => Except.ok []
  | x :: xs =>
      match f x with
      | Except.error e => Except.error e
      | Except.ok y =>
          match mapME f xs with
          | Except.error e => Except.error e
          | Except.ok ys => Except.ok (y :: ys)

/-- Buffer loop body (GLTFLODUtils.cpp:160). -/
def mergeBuffer (buffersOffset : Nat) (b : Buffer) : Except MergeError Buffer :=
  match AddIndexOffset b.id buffersOffset with
  | Except.error e => Except.error e
  | Except.ok id => Except.ok { b with id := id }

/-- Sampler loop body (GLTFLODUtils.cpp:167). -/
def mergeSampler (samplersOffset : Nat) (s : Sampler) : Except MergeError Sampler :=
  match AddIndexOffset s.id samplersOffset with
  | Except.error e => Except.error e
  | Except.ok id => Except.ok { s with id := id }

/-- BufferView loop body (GLTFLODUtils.cpp:187). -/
def mergeBufferView (bufferViewsOffset buffersOffset : Nat) (bv : BufferView) :
    Except MergeError BufferView :=
  match AddIndexOffset bv.id bufferViewsOffset with
  | Except.error e => Except.error e
  | Except.ok id =>
      match AddIndexOffset bv.bufferId buffersOffset with
      | Except.error e => Except.error e
      | Except.ok bufferId => Except.ok { bv with id := id, bufferId := bufferId }

/-- Accessor loop body (GLTFLODUtils.cpp:196). -/
def mergeAccessor (accessorOffset bufferViewsOffset : Nat) (a : Accessor) :
    Except MergeError Accessor :=
  match AddIndexOffset a.id accessorOffset with
  | Except.error e => Except.error e
  | Except.ok id =>
      match AddIndexOffset a.bufferViewId bufferViewsOffset with
      | Except.error e => Except.error e
      | Except.ok bufferViewId => Except.ok { a with id := id, bufferViewId := bufferViewId }

/-- Image loop body (GLTFLODUtils.cpp:206). -/
def mergeImage (imageOffset bufferViewsOffset : Nat) (im : Image) :
    Except MergeError Image :=
  match AddIndexOffset im.id imageOffset with
  | Except.error e => Except.error e
  | Except.ok id =>
      match AddIndexOffset im.bufferViewId bufferViewsOffset with
      | Except.error e => Except.error e
      | Except.ok bufferViewId => Except.ok { im with id := id, bufferViewId := bufferViewId }

/-- The MSFT_texture_dds patch inside the texture loop (GLTFLODUtils.cpp:222):
a present, non-empty dds payload has its optional `source` member (an Image
index) shifted and is reserialized; an absent member leaves the payload
reserialized unchanged. -/
def patchDdsExtension (exts : ExtMap) (imageOffset : Nat) : Except MergeError ExtMap :=
  match extFind exts EXTENSION_MSFT_TEXTURE_DDS with
  | some (some ddsJson) =>
      match ddsJson with
      | Json.jobj fields =>
          match jsonObjFind fields "source" with
          | some (Json.jnum index) =>
              Except.ok (extSet exts EXTENSION_MSFT_TEXTURE_DDS
                (some (Json.jobj (jsonObjSet fields "source" (Json.jnum (index + (imageOffset : Int)))))))
          | some _ => Except.error MergeError.jsonTypeError
          | none => Except.ok (extSet exts EXTENSION_MSFT_TEXTURE_DDS (some (Json.jobj fields)))
      | _ => Except.error MergeError.jsonTypeError
  | _ => Except.ok exts

/-- Texture loop body (GLTFLODUtils.cpp:215). -/
def mergeTexture (texturesOffset samplersOffset imageOffset : Nat) (t : Texture) :
    Except MergeError Texture :=
  match AddIndexOffset t.id texturesOffset with
  | Except.error e => Except.error e
  | Except.ok id =>
      match AddIndexOffset t.samplerId samplersOffset with
      | Except.error e => Except.error e
      | Except.ok samplerId =>
          match AddIndexOffset t.imageId imageOffset with
          | Except.error e => Except.error e
          | Except.ok imageId =>
              match patchDdsExtension t.extensions imageOffset with
              | Except.error e => Except.error e
              | Except.ok exts =>
                  Except.ok { t with id := id, samplerId := samplerId,
                                     imageId := imageId, extensions := exts }

/-- The MSFT_packing_occlusionRoughnessMetallic patch inside the material
loop (GLTFLODUtils.cpp:268): three independently optional packed texture
references, each shifted by the textures offset. -/
def patchOrmExtension (exts : ExtMap) (texturesOffset : Nat) : Except MergeError ExtMap :=
  match extFind exts EXTENSION_MSFT_PACKING_ORM with
  | some (some ormJson) =>
      match AddIndexOffsetPacked ormJson "occlusionRoughnessMetallicTexture" texturesOffset with
      | Except.error e => Except.error e
      | Except.ok j1 =>
          match AddIndexOffsetPacked j1 "roughnessMetallicOcclusionTexture" texturesOffset with
          | Except.error e => Except.error e
          | Except.ok j2 =>
              match AddIndexOffsetPacked j2 "normalTexture" texturesOffset with
              | Except.error e => Except.error e
              | Except.ok j3 => Except.ok (extSet exts EXTENSION_MSFT_PACKING_ORM (some j3))
  | _ => Except.ok exts

/-- Material loop body (GLTFLODUtils.cpp:250): lod-label name suffix, own id
and all seven texture foreign keys offset, packed extension patched. -/
def mergeMaterial (nodeLodLabel : String) (materialOffset texturesOffset : Nat)
    (m : Material) : Except MergeError Material :=
  match AddIndexOffset m.id materialOffset with
  | Except.error e => Except.error e
  | Except.ok id =>
      match AddIndexOffset m.normalTexture.id texturesOffset with
      | Except.error e => Except.error e
      | Except.ok normalId =>
          match AddIndexOffset m.occlusionTexture.id texturesOffset with
          | Except.error e => Except.error e
          | Except.ok occlusionId =>
              match AddIndexOffset m.emissiveTextureId texturesOffset with
              | Except.error e => Except.error e
              | Except.ok emissiveId =>
                  match AddIndexOffset m.metallicRoughness.baseColorTextureId texturesOffset with
                  | Except.error e => Except.error e
                  | Except.ok baseColorId =>
                      match AddIndexOffset m.metallicRoughness.metallicRoughnessTextureId texturesOffset with
                      | Except.error e => Except.error e
                      | Except.ok mrId =>
                          match AddIndexOffset m.specularGlossiness.diffuseTextureId texturesOffset with
                          | Except.error e => Except.error e
                          | Except.ok diffuseId =>
                              match AddIndexOffset m.specularGlossiness.specularGlossinessTextureId texturesOffset with
                              | Except.error e => Except.error e
                              | Except.ok sgId =>
                                  match patchOrmExtension m.extensions texturesOffset with
                                  | Except.error e => Except.error e
                                  | Except.ok exts =>
                                      Except.ok { m with
                                        name := m.name ++ nodeLodLabel,
                                        id := id,
                                        normalTexture := ⟨normalId⟩,
                                        occlusionTexture := ⟨occlusionId⟩,
                                        emissiveTextureId := emissiveId,
                                        metallicRoughness := ⟨baseColorId, mrId⟩,
                                        specularGlossiness := ⟨diffuseId, sgId⟩,
                                        extensions := exts }

/-- Primitive loop body inside the mesh loop (GLTFLODUtils.cpp:299). -/
def mergePrimitive (accessorOffset materialOffset : Nat) (pr : MeshPrimitive) :
    Except MergeError MeshPrimitive :=
  match AddIndexOffset pr.positionsAccessorId accessorOffset with
  | Except.error e => Except.error e
  | Except.ok positions =>
      match AddIndexOffset pr.normalsAccessorId accessorOffset with
      | Except.error e => Except.error e
      | Except.ok normals =>
          match AddIndexOffset pr.indicesAccessorId accessorOffset with
          | Except.error e => Except.error e
          | Except.ok indices =>
              match AddIndexOffset pr.uv0AccessorId accessorOffset with
              | Except.error e => Except.error e
              | Except.ok uv0 =>
                  match AddIndexOffset pr.uv1AccessorId accessorOffset with
                  | Except.error e => Except.error e
                  | Except.ok uv1 =>
                      match AddIndexOffset pr.color0AccessorId accessorOffset with
                      | Except.error e => Except.error e
                      | Except.ok color0 =>
                          match AddIndexOffset pr.materialId materialOffset with
                          | Except.error e => Except.error e
                          | Except.ok materialId =>
                              Except.ok { pr with
                                positionsAccessorId := positions,
                                normalsAccessorId := normals,
                                indicesAccessorId := indices,
                                uv0AccessorId := uv0,
                                uv1AccessorId := uv1,
                                color0AccessorId := color0,
                                materialId := materialId }

/-- Mesh loop body (GLTFLODUtils.cpp:291). -/
def mergeMesh (nodeLodLabel : String) (meshOffset accessorOffset materialOffset : Nat)
    (mesh : Mesh) : Except MergeError Mesh :=
  match AddIndexOffset mesh.id meshOffset with
  | Except.error e => Except.error e
  | Except.ok id =>
      match mapME (mergePrimitive accessorOffset materialOffset) mesh.primitives with
      | Except.error e => Except.error e
      | Except.ok primitives =>
          Except.ok { mesh with name := mesh.name ++ nodeLodLabel, id := id,
                                primitives := primitives }

/-- Node loop body (GLTFLODUtils.cpp:319). -/
def mergeNode (nodeLodLabel : String) (nodeOffset meshOffset : Nat) (node : Node) :
    Except MergeError Node :=
  match AddIndexOffset node.id nodeOffset with
  | Except.error e => Except.error e
  | Except.ok id =>
      match AddIndexOffset node.meshId meshOffset with
      | Except.error e => Except.error e
      | Except.ok meshId =>
          match mapME (fun c => AddIndexOffset c nodeOffset) node.children with
          | Except.error e => Except.error e
          | Except.ok children =>
              Except.ok { node with name := node.name ++ nodeLodLabel, id := id,
                                    meshId := meshId, children := children }

/-- The per-scene topology comparison of AddGLTFNodeLOD
(GLTFLODUtils.cpp:127): equal root counts, and either a single root or
positionwise equal root identifier lists (std::equal over equal-length
ranges). -/
def scenePairOk (p l : Scene) : Bool :=
  p.nodes.length == l.nodes.length &&
    (l.nodes.length == 1 || p.nodes == l.nodes)

/-- The scene comparison loop of AddGLTFNodeLOD (GLTFLODUtils.cpp:124):
walks the paired scenes; on a matching pair it reads the first root node
(index 0 of the roots - out of bounds for a rootless scene), resolves it in
the clone's (= primary's) node collection and looks its chain up in the
registry, tracking the longest chain seen; on a failing pair it stops with
a false flag.  The flag argument is the current value of sceneNodeMatch
(initially false, so an empty scene list never matches). -/
def sceneMatchLoop (nodes : List Node) (lods : LODMap) :
    List (Scene × Scene) → Nat → Bool → Except MergeError (Bool × Nat)
  | [], maxLvl, flag => Except.ok (flag, maxLvl)
  | (p, l) :: rest, maxLvl, _ =>
      if scenePairOk p l then
        match p.nodes.head? with
        | none => Except.error MergeError.outOfBounds
        | some rootId =>
            match nodesGet nodes rootId with
            | none => Except.error MergeError.lookupFailure
            | some primaryRootNode =>
                match lodAt lods primaryRootNode.id with
                | none => Except.error MergeError.lookupFailure
                | some chain => sceneMatchLoop nodes lods rest (Nat.max maxLvl chain.length) true
      else Except.ok (false, maxLvl)

/-- The topology check of AddGLTFNodeLOD (GLTFLODUtils.cpp:121): the loop
runs only when the scene counts agree; otherwise sceneNodeMatch stays
false. -/
def scanScenes (primary lod : GLTFDocument) (primaryLods : LODMap) :
    Except MergeError (Bool × Nat) :=
  if primary.scenes.length == lod.scenes.length then
    sceneMatchLoop primary.nodes primaryLods (primary.scenes.zip lod.scenes) 0 false
  else Except.ok (false, 0)

/-- The append phase of AddGLTFNodeLOD (GLTFLODUtils.cpp:156-334): every
candidate collection is transformed and appended in dependency order, and
extensionsUsed is unioned with the candidate's plus MSFT_lod.  Each block
appends only to its own collection, so every offset the C++ reads from the
growing clone equals the corresponding primary collection size, which is
what is used here. -/
def mergeAllCollections (nodeLodLabel : String) (gltfLod lod : GLTFDocument) :
    Except MergeError GLTFDocument :=
  match mapME (mergeBuffer gltfLod.buffers.length) lod.buffers with
  | Except.error e => Except.error e
  | Except.ok nb =>
      match mapME (mergeSampler gltfLod.samplers.length) lod.samplers with
      | Except.error e => Except.error e
      | Except.ok nsam =>
          match mapME (mergeBufferView gltfLod.bufferViews.length gltfLod.buffers.length) lod.bufferViews with
          | Except.error e => Except.error e
          | Except.ok nbv =>
              match mapME (mergeAccessor gltfLod.accessors.length gltfLod.bufferViews.length) lod.accessors with
              | Except.error e => Except.error e
              | Except.ok na =>
                  match mapME (mergeImage gltfLod.images.length gltfLod.bufferViews.length) lod.images with
                  | Except.error e => Except.error e
                  | Except.ok ni =>
                      match mapME (mergeTexture gltfLod.textures.length gltfLod.samplers.length gltfLod.images.length) lod.textures with
                      | Except.error e => Except.error e
                      | Except.ok nt =>
                          match mapME (mergeMaterial nodeLodLabel gltfLod.materials.length gltfLod.textures.length) lod.materials with
                          | Except.error e => Except.error e
                          | Except.ok nmat =>
                              match mapME (mergeMesh nodeLodLabel gltfLod.meshes.length gltfLod.accessors.length gltfLod.materials.length) lod.meshes with
                              | Except.error e => Except.error e
                              | Except.ok nme =>
                                  match mapME (mergeNode nodeLodLabel gltfLod.nodes.length gltfLod.meshes.length) lod.nodes with
                                  | Except.error e => Except.error e
                                  | Except.ok nn =>
                                      Except.ok { gltfLod with
                                        buffers := gltfLod.buffers ++ nb,
                                        samplers := gltfLod.samplers ++ nsam,
                                        bufferViews := gltfLod.bufferViews ++ nbv,
                                        accessors := gltfLod.accessors ++ na,
                                        images := gltfLod.images ++ ni,
                                        textures := gltfLod.textures ++ nt,
                                        materials := gltfLod.materials ++ nmat,
                                        meshes := gltfLod.meshes ++ nme,
                                        nodes := gltfLod.nodes ++ nn,
                                        extensionsUsed :=
                                          setInsert (lod.extensionsUsed.foldl setInsert gltfLod.extensionsUsed)
                                            EXTENSION_MSFT_LOD }

/-- Inner registry-update loop of AddGLTFNodeLOD (GLTFLODUtils.cpp:340) over
the paired root identifiers of one scene pair: resolve the primary root in
the merged node collection, reparse the candidate root reference, shift it
by the node offset and append it to the primary root's chain.  The registry
is mutated in place through shared pointers in the C++, so the map state is
returned even on a thrown error. -/
def rootPairsLoop (docNodes : List Node) (nodeOffset : Nat) :
    LODMap → List (String × String) → LODMap × Except MergeError Unit
  | lods, [] => (lods, Except.ok ())
  | lods, (pid, lid) :: rest =>
      match nodesGet docNodes pid with
      | none => (lods, Except.error MergeError.lookupFailure)
      | some nodeWithLods =>
          match stoi lid with
          | none => (lods, Except.error MergeError.malformedIdentifier)
          | some n =>
              match lodAt lods nodeWithLods.id with
              | none => (lods, Except.error MergeError.lookupFailure)
              | some _ =>
                  rootPairsLoop docNodes nodeOffset
                    (lodAppend lods nodeWithLods.id (toString (n + (nodeOffset : Int)))) rest

/-- Outer registry-update loop of AddGLTFNodeLOD (GLTFLODUtils.cpp:338) over
the scene pairs.  Root lists of a matched pair have equal length, so the
C++ index iteration is the zip of the two root lists. -/
def registryLoop (docNodes : List Node) (nodeOffset : Nat) :
    LODMap → List (Scene × Scene) → LODMap × Except MergeError Unit
  | lods, [] => (lods, Except.ok ())
  | lods, (p, l) :: rest =>
      match rootPairsLoop docNodes nodeOffset lods (p.nodes.zip l.nodes) with
      | (lods1, Except.ok _) => registryLoop docNodes nodeOffset lods1 rest
      | (lods1, Except.error e) => (lods1, Except.error e)

/-- AddGLTFNodeLOD (GLTFLODUtils.cpp:111): one merge step.  The primary is
cloned and all document mutation happens on the clone, so the primary
argument itself is never changed; the externally shared state is the
registry, whose final value is returned alongside the outcome.  The node
offset of the registry update is the clone's node count before the node
appends, i.e. the primary's. -/
def AddGLTFNodeLOD (primary : GLTFDocument) (primaryLods : LODMap) (lod : GLTFDocument) :
    LODMap × Except MergeError GLTFDocument :=
  match scanScenes primary lod primaryLods with
  | Except.error e => (primaryLods, Except.error e)
  | Except.ok (sceneNodeMatch, maxSeen) =>
      if !sceneNodeMatch || primary.scenes.isEmpty then
        (primaryLods, Except.error MergeError.topologyMismatch)
      else
        match mergeAllCollections ("_lod" ++ toString (maxSeen + 1)) primary lod with
        | Except.error e => (primaryLods, Except.error e)
        | Except.ok merged =>
            match registryLoop merged.nodes primary.nodes.length primaryLods
                (primary.scenes.zip lod.scenes) with
            | (lods1, Except.ok _) => (lods1, Except.ok merged)
            | (lods1, Except.error e) => (lods1, Except.error e)

/-- ParseExtensionMSFTLod (GLTFLODUtils.cpp:46): read a node's MSFT_lod
payload; absent extension or absent ids member yield the empty chain; each
ids element is an integer reprinted as a string identifier.  An empty
payload string fails to parse, and non-object / non-array / non-integer
kinds trip rapidjson assertions. -/
def ParseExtensionMSFTLod (node : Node) : Except MergeError (List String) :=
  match extFind node.extensions EXTENSION_MSFT_LOD with
  | none => Except.ok []
  | some none => Except.error MergeError.jsonParseError
  | some (some (Json.jobj fields)) =>
      match jsonObjFind fields MSFT_LOD_IDS_KEY with
      | none => Except.ok []
      | some (Json.jarr elems) =>
          mapME (fun v =>
            match v with
            | Json.jnum n => Except.ok (toString n)
            | _ => Except.error MergeError.jsonTypeError) elems
      | some _ => Except.error MergeError.jsonTypeError
  | some (some _) => Except.error MergeError.jsonTypeError

/-- The template parameter of SerializeExtensionMSFTLod: which entity kind
the chain is serialized against. -/
inductive LODTargetKind where
  | node
  | material
  | other
  deriving DecidableEq

/-- The GetIndex resolution loop of SerializeExtensionMSFTLod: each chain
identifier becomes its current positional index; a missing identifier
throws. -/
def serializeIndices (getIdx : String → Option Nat) (lods : List String) :
    Except MergeError (List Nat) :=
  mapME (fun lodId => getOrErr MergeError.lookupFailure (getIdx lodId)) lods

/-- The payload document built by SerializeExtensionMSFTLod: the object
mapping MSFT_LOD_IDS_KEY to the index array. -/
def mkIdsPayload (lodIndices : List Nat) : Json :=
  Json.jobj [(MSFT_LOD_IDS_KEY, Json.jarr (lodIndices.map (fun i => Json.jnum (Int.ofNat i))))]

/-- The per-kind dispatch of SerializeExtensionMSFTLod (the
std::is_same branches of the template; any other instantiation throws). -/
def serializeKind : LODTargetKind → List String → GLTFDocument → Except MergeError Payload
  | LODTargetKind.material, lods, gltfDocument =>
      Except.map (fun lodIndices => some (mkIdsPayload lodIndices))
        (serializeIndices (materialsGetIndex gltfDocument.materials) lods)
  | LODTargetKind.node, lods, gltfDocument =>
      Except.map (fun lodIndices => some (mkIdsPayload lodIndices))
        (serializeIndices (nodesGetIndex gltfDocument.nodes) lods)
  | LODTargetKind.other, _, _ => Except.error MergeError.unsupportedEntityKind

/-- SerializeExtensionMSFTLod (GLTFLODUtils.cpp:68): an empty chain yields
the empty payload (the extension must then be omitted); otherwise each
chain identifier is resolved to its current positional index in the target
collection and the payload is the object mapping MSFT_LOD_IDS_KEY to that
index list; a target kind other than Material or Node throws. -/
def SerializeExtensionMSFTLod (kind : LODTargetKind) (lods : List String)
    (gltfDocument : GLTFDocument) : Except MergeError Payload :=
  if lods.isEmpty then Except.ok none
  else serializeKind kind lods gltfDocument

/-- The node walk of ParseDocumentNodeLODs, accumulating the registry with
emplace (first parse of an identifier wins). -/
def parseNodesLoop : List Node → LODMap → Except MergeError LODMap
  | [], m => Except.ok m
  | n :: rest, m =>
      match ParseExtensionMSFTLod n with
      | Except.error e => Except.error e
      | Except.ok ids => parseNodesLoop rest (lodEmplace m n.id ids)

/-- ParseDocumentNodeLODs (GLTFLODUtils.cpp:354): seed the registry from
every node of the document. -/
def ParseDocumentNodeLODs (doc : GLTFDocument) : Except MergeError LODMap :=
  parseNodesLoop doc.nodes []

/-- Emplace a serialized LOD payload onto a node
(node.extensions.emplace(EXTENSION_MSFT_LOD, value) at GLTFLODUtils.cpp:393;
emplace inserts only when the key is absent). -/
def emplaceLodExtension (v : Json) (n : Node) : Node :=
  { n with extensions := extEmplace n.extensions EXTENSION_MSFT_LOD (some v) }

/-- The finalization pass of MergeDocumentsAsLODs (GLTFLODUtils.cpp:381):
every registry entry with a non-empty chain is serialized against the final
node collection and emplaced onto its node, which is replaced in place.
Chains are never null pointers for registries built by this code, so the
C++ null guard has no counterpart.  The unordered_map iteration order is
unspecified in C++; distinct entries touch nodes with distinct identifiers
and serialization reads only identifiers, so the result is order
independent and the registry's entry order is used. -/
def applyLodExtensions : GLTFDocument → List (String × List String) →
    Except MergeError GLTFDocument
  | doc, [] => Except.ok doc
  | doc, (nodeId, chain) :: rest =>
      if chain.length == 0 then applyLodExtensions doc rest
      else
        match nodesGet doc.nodes nodeId with
        | none => Except.error MergeError.lookupFailure
        | some node =>
            match SerializeExtensionMSFTLod LODTargetKind.node chain doc with
            | Except.error e => Except.error e
            | Except.ok none => applyLodExtensions doc rest
            | Except.ok (some lodExtensionValue) =>
                match nodesReplace doc.nodes (emplaceLodExtension lodExtensionValue node) with
                | Except.error e => Except.error e
                | Except.ok nodes1 => applyLodExtensions { doc with nodes := nodes1 } rest

/-- The fold of AddGLTFNodeLOD over the trailing documents
(GLTFLODUtils.cpp:376), threading the accumulated document and the shared
registry. -/
def mergeLoop : GLTFDocument → LODMap → List GLTFDocument →
    LODMap × Except MergeError GLTFDocument
  | doc, lods, [] => (lods, Except.ok doc)
  | doc, lods, d :: rest =>
      match AddGLTFNodeLOD doc lods d with
      | (lods1, Except.ok doc1) => mergeLoop doc1 lods1 rest
      | (lods1, Except.error e) => (lods1, Except.error e)

/-- MergeDocumentsAsLODs (GLTFLODUtils.cpp:366): seed the registry from the
first document, fold the merge step over the rest, then flush the registry
into node extensions. -/
def MergeDocumentsAsLODs (docs : List GLTFDocument) : Except MergeError GLTFDocument :=
  match docs with
  | [] => Except.error MergeError.emptyInput
  | d0 :: rest =>
      match ParseDocumentNodeLODs d0 with
      | Except.error e => Except.error e
      | Except.ok lods =>
          match mergeLoop d0 lods rest with
          | (_, Except.error e) => Except.error e
          | (lodsN, Except.ok gltfPrimary) => applyLodExtensions gltfPrimary lodsN

/-- The screen-coverage key written by MergeDocumentsAsLODs
(GLTFLODUtils.cpp:425). -/
def MSFT_SCREENCOVERAGE_KEY : String := "MSFT_screencoverage"

/-- Attach the screen-coverage array to one root node
(GLTFLODUtils.cpp:416-431): empty extras parse to a fresh object, and
rapidjson AddMember appends the member to the object (even when the key is
already present). -/
def attachCoverage (coverage : List Rat) (n : Node) : Except MergeError Node :=
  match n.extras with
  | none =>
      Except.ok { n with extras := some (Json.jobj
        [(MSFT_SCREENCOVERAGE_KEY, Json.jarr (coverage.map Json.jreal))]) }
  | some (Json.jobj fields) =>
      Except.ok { n with extras := some (Json.jobj
        (fields ++ [(MSFT_SCREENCOVERAGE_KEY, Json.jarr (coverage.map Json.jreal))])) }
  | some _ => Except.error MergeError.jsonTypeError

/-- The root-node walk of the screen-coverage pass over one scene's root
list (GLTFLODUtils.cpp:412). -/
def coverageRootsLoop (coverage : List Rat) :
    GLTFDocument → List String → Except MergeError GLTFDocument
  | doc, [] => Except.ok doc
  | doc, rootId :: rest =>
      match nodesGet doc.nodes rootId with
      | none => Except.error MergeError.lookupFailure
      | some primaryRootNode =>
          match attachCoverage coverage primaryRootNode with
          | Except.error e => Except.error e
          | Except.ok node1 =>
              match nodesReplace doc.nodes node1 with
              | Except.error e => Except.error e
              | Except.ok nodes1 => coverageRootsLoop coverage { doc with nodes := nodes1 } rest

/-- The scene walk of the screen-coverage pass (GLTFLODUtils.cpp:410); the
scene list is the snapshot taken at loop entry (node replacement never
touches the scene collection). -/
def coverageScenesLoop (coverage : List Rat) :
    GLTFDocument → List Scene → Except MergeError GLTFDocument
  | doc, [] => Except.ok doc
  | doc, scene :: rest =>
      match coverageRootsLoop coverage doc scene.nodes with
      | Except.error e => Except.error e
      | Except.ok doc1 => coverageScenesLoop coverage doc1 rest

/-- The screen-coverage overload of MergeDocumentsAsLODs
(GLTFLODUtils.cpp:401): merge, then, when the coverage list is non-empty,
attach it to every scene root node of every scene. -/
def MergeDocumentsAsLODsWithCoverage (docs : List GLTFDocument)
    (screenCoveragePercentages : List Rat) : Except MergeError GLTFDocument :=
  match MergeDocumentsAsLODs docs with
  | Except.error e => Except.error e
  | Except.ok merged =>
      if screenCoveragePercentages.length == 0 then Except.ok merged
      else coverageScenesLoop screenCoveragePercentages merged merged.scenes

/-- The node walk of NumberOfNodeLODLevels (GLTFLODUtils.cpp:443). -/
def lodLevelsLoop (lods : LODMap) : List Node → Nat → Except MergeError Nat
  | [], acc => Except.ok acc
  | n :: rest, acc =>
      match lodAt lods n.id with
      | none => Except.error MergeError.lookupFailure
      | some chain => lodLevelsLoop lods rest (Nat.max acc chain.length)

/-- NumberOfNodeLODLevels (GLTFLODUtils.cpp:440): the maximum chain length
over all nodes of the document (chain lengths are far below the uint32
truncation of the C++ return). -/
def NumberOfNodeLODLevels (doc : GLTFDocument) (lods : LODMap) : Except MergeError Nat :=
  lodLevelsLoop lods doc.nodes 0

/-
  Statement-support definitions: pure views of the code's behaviour used to
  phrase the verified properties.
-/

/-- The topology precondition enforced by AddGLTFNodeLOD, as a pure
predicate: equal scene counts, a non-empty primary scene list, and every
paired scene passing the per-scene comparison. -/
def topologyOkay (primary lod : GLTFDocument) : Bool :=
  primary.scenes.length == lod.scenes.length &&
    !primary.scenes.isEmpty &&
    (primary.scenes.zip lod.scenes).all (fun pl => scenePairOk pl.1 pl.2)

/-- All scene-root identifiers of a document, in scene order. -/
def sceneRootIds (d : GLTFDocument) : List String :=
  (d.scenes.map Scene.nodes).flatten

/-- The paired (primary root, candidate root) identifiers walked by the
registry update of a merge step. -/
def rootPairs (p c : GLTFDocument) : List (String × String) :=
  ((p.scenes.zip c.scenes).map (fun pl => pl.1.nodes.zip pl.2.nodes)).flatten

/-- The entries the registry update of one merge step appends to the chain
of identifier `k`: one per root pair whose primary side is `k`, namely the
candidate root reparsed and shifted by the node offset. -/
def appendedIds (nodeOffset : Nat) (prs : List (String × String)) (k : String) :
    List String :=
  prs.filterMap (fun pr =>
    if pr.1 == k then (stoi pr.2).map (fun n => toString (n + (nodeOffset : Int)))
    else none)

/-- The extras member the screen-coverage pass appends. -/
def screenCoverageEntry (coverage : List Rat) : String × Json :=
  (MSFT_SCREENCOVERAGE_KEY, Json.jarr (coverage.map Json.jreal))

/-- The member list of a node's extras object: the empty string denotes the
empty object. -/
def extrasFieldsAre (n : Node) (fs : List (String × Json)) : Prop :=
  (n.extras = none ∧ fs = []) ∨ n.extras = some (Json.jobj fs)

/-- Node `b` is node `a` after the screen-coverage pass touched it: all
fields agree except that the extras object gained one or more copies of the
coverage member at its end (one per occurrence of the node among scene
roots), every pre-existing member staying in place. -/
def coveredFrom (coverage : List Rat) (a b : Node) : Prop :=
  ∃ fs ext, extrasFieldsAre a fs ∧ ext ≠ [] ∧
    (∀ x ∈ ext, x = screenCoverageEntry coverage) ∧
    b = { a with extras := some (Json.jobj (fs ++ ext)) }

/-
  Concrete documents used by witnesses and counterexamples, shaped after
  the example scenario of the spec.
-/

/-- A minimal node with the given identifier. -/
def exNode (i : String) : Node :=
  { id := i, name := "n" ++ i, meshId := "", children := [],
    extensions := [], extras := none }

/-- The all-empty document. -/
def exEmptyDoc : GLTFDocument :=
  { buffers := [], samplers := [], bufferViews := [], accessors := [],
    images := [], textures := [], materials := [], meshes := [],
    nodes := [], scenes := [], extensionsUsed := [] }

/-- A primary document: one scene rooted at node "0". -/
def exPrimary : GLTFDocument :=
  { exEmptyDoc with nodes := [exNode "0"], scenes := [{ id := "0", nodes := ["0"] }] }

/-- A topology-matching candidate for `exPrimary`. -/
def exCandidate : GLTFDocument :=
  { exEmptyDoc with nodes := [exNode "0"], scenes := [{ id := "0", nodes := ["0"] }] }

/-- The registry seeded from `exPrimary`. -/
def exLods : LODMap := [("0", [])]

/-- A primary whose two scenes share the same root node "0". -/
def exPrimaryShared : GLTFDocument :=
  { exEmptyDoc with
    nodes := [exNode "0"],
    scenes := [{ id := "0", nodes := ["0"] }, { id := "1", nodes := ["0"] }] }

/-- A topology-matching candidate for `exPrimaryShared` with two distinct
roots. -/
def exCandidateTwo : GLTFDocument :=
  { exEmptyDoc with
    nodes := [exNode "0", exNode "1"],
    scenes := [{ id := "0", nodes := ["0"] }, { id := "1", nodes := ["1"] }] }

/-- A primary whose root node carries a pre-existing unrelated extras
member. -/
def exPrimaryExtras : GLTFDocument :=
  { exEmptyDoc with
    nodes := [{ exNode "0" with extras := some (Json.jobj [("unrelated", Json.jnum 7)]) }],
    scenes := [{ id := "0", nodes := ["0"] }] }

/-- A candidate whose single root has a differing identifier "1" (single
root scenes skip the identifier comparison). -/
def exCandidateDiffRoot : GLTFDocument :=
  { exEmptyDoc with nodes := [exNode "1"], scenes := [{ id := "0", nodes := ["1"] }] }

/-- Extract the document of a successful outcome (examples only; the
default is never reached on the inputs it is used with). -/
def okOrEmpty : Except MergeError GLTFDocument → GLTFDocument
  | Except.ok d => d
  | Except.error _ => exEmptyDoc

/-- Extract the registry of a successful parse (examples only). -/
def okOrNilMap : Except MergeError LODMap → LODMap
  | Except.ok m => m
  | Except.error _ => []

/-- The merged document of the one-step example. -/
def exMergedOnce : GLTFDocument :=
  okOrEmpty (AddGLTFNodeLOD exPrimary exLods exCandidate).2

/-- The registry after the one-step example. -/
def exLodsOnce : LODMap :=
  (AddGLTFNodeLOD exPrimary exLods exCandidate).1

/-- The full two-document merge of the example pair. -/
def exMergedAll : GLTFDocument :=
  okOrEmpty (MergeDocumentsAsLODs [exPrimaryExtras, exCandidate])

/-- The example screen-coverage list. -/
def exCoverage : List Rat := [100, 50]

/-- The two-document merge with screen coverage attached. -/
def exMergedCov : GLTFDocument :=
  okOrEmpty (MergeDocumentsAsLODsWithCoverage [exPrimaryExtras, exCandidate] exCoverage)

/-- The merge of the shared-root example pair. -/
def exMergedShared : GLTFDocument :=
  okOrEmpty (MergeDocumentsAsLODs [exPrimaryShared, exCandidateTwo])

/-- The registry reparsed from the shared-root merge. -/
def exRegShared : LODMap :=
  okOrNilMap (ParseDocumentNodeLODs exMergedShared)

/-- The merged document of the single shared-root merge step. -/
def exMergedSharedStep : GLTFDocument :=
  okOrEmpty (AddGLTFNodeLOD exPrimaryShared exLods exCandidateTwo).2

/-- The merged document of the differing-single-root example. -/
def exMergedDiff : GLTFDocument :=
  okOrEmpty (AddGLTFNodeLOD exPrimary exLods exCandidateDiffRoot).2

/-- The registry after the differing-single-root example. -/
def exLodsDiff : LODMap :=
  (AddGLTFNodeLOD exPrimary exLods exCandidateDiffRoot).1

/-
  Lemmas: iteration and map primitives.
-/

theorem mapME_ok_length {α β : Type} {f : α → Except MergeError β} :
    ∀ {xs : List α} {ys : List β}, mapME f xs = Except.ok ys → ys.length = xs.length := by
  intro xs
  induction xs with
  | nil =>
      intro ys h
      simp only [mapME, Except.ok.injEq] at h
      subst h
      rfl
  | cons x xs ih =>
      intro ys h
      simp only [mapME] at h
      cases hfx : f x with
      | error e => rw [hfx] at h; exact absurd h (by simp)
      | ok y =>
          rw [hfx] at h
          cases hm : mapME f xs with
          | error e => rw [hm] at h; exact absurd h (by simp)
          | ok ys0 =>
              rw [hm] at h
              simp only [Except.ok.injEq] at h
              subst h
              simp [ih hm]

theorem mapME_ok_forall2 {α β : Type} {f : α → Except MergeError β} :
    ∀ {xs : List α} {ys : List β}, mapME f xs = Except.ok ys →
      List.Forall₂ (fun x y => f x = Except.ok y) xs ys := by
  intro xs
  induction xs with
  | nil =>
      intro ys h
      simp only [mapME, Except.ok.injEq] at h
      subst h
      exact List.Forall₂.nil
  | cons x xs ih =>
      intro ys h
      simp only [mapME] at h
      cases hfx : f x with
      | error e => rw [hfx] at h; exact absurd h (by simp)
      | ok y =>
          rw [hfx] at h
          cases hm : mapME f xs with
          | error e => rw [hm] at h; exact absurd h (by simp)
          | ok ys0 =>
              rw [hm] at h
              simp only [Except.ok.injEq] at h
              subst h
              exact List.Forall₂.cons hfx (ih hm)

theorem mapME_eq_map {α β : Type} {f : α → Except MergeError β} {g : α → β} :
    ∀ {xs : List α}, (∀ x ∈ xs, f x = Except.ok (g x)) →
      mapME f xs = Except.ok (xs.map g) := by
  intro xs
  induction xs with
  | nil => intro _; rfl
  | cons x xs ih =>
      intro h
      have hx := h x (by simp)
      have hrest := ih (fun a ha => h a (by simp [ha]))
      simp only [mapME, hx, hrest, List.map_cons]

theorem mapME_error_mem {α β : Type} {f : α → Except MergeError β} {e : MergeError} :
    ∀ {xs : List α}, mapME f xs = Except.error e → ∃ x ∈ xs, f x = Except.error e := by
  intro xs
  induction xs with
  | nil => intro h; simp [mapME] at h
  | cons x xs ih =>
      intro h
      simp only [mapME] at h
      cases hfx : f x with
      | error e1 =>
          rw [hfx] at h
          simp only [Except.error.injEq] at h
          subst h
          exact ⟨x, by simp, hfx⟩
      | ok y =>
          rw [hfx] at h
          cases hm : mapME f xs with
          | error e1 =>
              rw [hm] at h
              simp only [Except.error.injEq] at h
              subst h
              obtain ⟨a, ha, hea⟩ := ih hm
              exact ⟨a, by simp [ha], hea⟩
          | ok ys0 => rw [hm] at h; exact absurd h (by simp)

theorem assocFind_cons {β : Type} (kv : String × β) (m : List (String × β)) (k : String) :
    assocFind (kv :: m) k = if kv.1 = k then some kv.2 else assocFind m k := by
  simp [assocFind]

theorem assocFind_append_of_some {β : Type} {m1 : List (String × β)} {k : String}
    {v : β} (m2 : List (String × β)) (h : assocFind m1 k = some v) :
    assocFind (m1 ++ m2) k = some v := by
  induction m1 with
  | nil => simp [assocFind] at h
  | cons kv m ih =>
      rw [assocFind_cons] at h
      by_cases hk : kv.1 = k
      · simp only [hk, if_pos rfl] at h
        simpa [assocFind_cons, hk] using h
      · rw [if_neg hk] at h
        simpa [assocFind_cons, hk] using ih h

theorem assocFind_append_of_none {β : Type} {m1 : List (String × β)} {k : String}
    (m2 : List (String × β)) (h : assocFind m1 k = none) :
    assocFind (m1 ++ m2) k = assocFind m2 k := by
  induction m1 with
  | nil => simp
  | cons kv m ih =>
      rw [assocFind_cons] at h
      by_cases hk : kv.1 = k
      · rw [if_pos hk] at h; cases h
      · rw [if_neg hk] at h
        simpa [assocFind_cons, hk] using ih h

theorem lodAt_lodAppend (m : LODMap) (k v k1 : String) :
    lodAt (lodAppend m k v) k1 =
      if k1 = k then (lodAt m k).map (fun ch => ch ++ [v]) else lodAt m k1 := by
  induction m with
  | nil =>
      by_cases hk : k1 = k <;> simp [lodAppend, setFirst, lodAt, assocFind, hk]
  | cons kv m ih =>
      simp only [lodAppend, setFirst] at *
      by_cases h0 : kv.1 = k
      · rw [if_pos (by simpa using h0)]
        by_cases hk : k1 = k
        · simp [lodAt, assocFind_cons, hk, h0]
        · have h01 : ¬ kv.1 = k1 := fun hx => hk (by rw [← hx, h0])
          simp [lodAt, assocFind_cons, hk, h01]
      · rw [if_neg (by simpa using h0)]
        by_cases hk : k1 = k
        · subst hk
          simp only [lodAt, assocFind_cons, if_neg h0]
          simpa [lodAt, if_pos rfl] using ih
        · by_cases h01 : kv.1 = k1
          · simp [lodAt, assocFind_cons, h01, hk]
          · simp only [lodAt, assocFind_cons, if_neg h01]
            simpa [lodAt, if_neg hk] using ih

theorem lodAppend_keys (m : LODMap) (k v : String) :
    (lodAppend m k v).map Prod.fst = m.map Prod.fst := by
  induction m with
  | nil => rfl
  | cons kv m ih =>
      simp only [lodAppend, setFirst] at *
      by_cases h0 : kv.1 = k
      · rw [if_pos (by simpa using h0)]; simp
      · rw [if_neg (by simpa using h0)]; simpa using ih

theorem lodEmplace_present {m : LODMap} {k : String} {w v : List String}
    (h : lodAt m k = some w) : lodEmplace m k v = m := by
  simp only [lodEmplace, lodAt] at *
  simp [h]

theorem lodAt_lodEmplace_absent {m : LODMap} {k : String} (v : List String)
    (h : lodAt m k = none) (k1 : String) :
    lodAt (lodEmplace m k v) k1 = if k1 = k then some v else lodAt m k1 := by
  have hm : lodEmplace m k v = m ++ [(k, v)] := by
    simp only [lodEmplace, lodAt] at *
    simp [h]
  rw [hm]
  by_cases hk : k1 = k
  · subst hk
    rw [show lodAt (m ++ [(k1, v)]) k1 = assocFind (m ++ [(k1, v)]) k1 from rfl,
      assocFind_append_of_none _ h]
    simp [assocFind]
  · cases hv : lodAt m k1 with
    | none =>
        rw [show lodAt (m ++ [(k, v)]) k1 = assocFind (m ++ [(k, v)]) k1 from rfl,
          assocFind_append_of_none _ hv]
        simp [assocFind, hk, Ne.symm hk]
    | some w =>
        rw [show lodAt (m ++ [(k, v)]) k1 = assocFind (m ++ [(k, v)]) k1 from rfl,
          assocFind_append_of_some _ hv]
        simp [hk]

theorem extFind_extEmplace_absent {m : ExtMap} {k : String} (v : Payload)
    (h : extFind m k = none) (k1 : String) :
    extFind (extEmplace m k v) k1 = if k1 = k then some v else extFind m k1 := by
  have hm : extEmplace m k v = m ++ [(k, v)] := by
    simp only [extEmplace, extFind] at *
    simp [h]
  rw [hm]
  by_cases hk : k1 = k
  · subst hk
    rw [show extFind (m ++ [(k1, v)]) k1 = assocFind (m ++ [(k1, v)]) k1 from rfl,
      assocFind_append_of_none _ h]
    simp [assocFind]
  · cases hv : extFind m k1 with
    | none =>
        rw [show extFind (m ++ [(k, v)]) k1 = assocFind (m ++ [(k, v)]) k1 from rfl,
          assocFind_append_of_none _ hv]
        simp [assocFind, hk, Ne.symm hk]
    | some w =>
        rw [show extFind (m ++ [(k, v)]) k1 = assocFind (m ++ [(k, v)]) k1 from rfl,
          assocFind_append_of_some _ hv]
        simp [hk]

/-
  Lemmas: the node collection.
-/

theorem nodesGet_cons (n : Node) (ns : List Node) (i : String) :
    nodesGet (n :: ns) i = if n.id = i then some n else nodesGet ns i := by
  by_cases h : n.id = i
  · simp [nodesGet, List.find?_cons_of_pos, h]
  · simp [nodesGet, List.find?_cons_of_neg, h]

theorem nodesGet_eq_id {ns : List Node} {i : String} {n : Node}
    (h : nodesGet ns i = some n) : n.id = i := by
  have := List.find?_some h
  simpa using this

theorem nodesGet_mem {ns : List Node} {i : String} {n : Node}
    (h : nodesGet ns i = some n) : n ∈ ns :=
  List.mem_of_find?_eq_some h

theorem nodesGet_append_left {ns1 : List Node} {i : String} {n : Node}
    (ns2 : List Node) (h : nodesGet ns1 i = some n) :
    nodesGet (ns1 ++ ns2) i = some n := by
  induction ns1 with
  | nil => simp [nodesGet] at h
  | cons x xs ih =>
      rw [nodesGet_cons] at h
      by_cases hx : x.id = i
      · rw [if_pos hx] at h
        simpa [nodesGet_cons, hx] using h
      · rw [if_neg hx] at h
        simpa [nodesGet_cons, hx] using ih h

theorem nodesGet_self_of_nodup {ns : List Node} (hnd : (ns.map Node.id).Nodup)
    {n : Node} (hn : n ∈ ns) : nodesGet ns n.id = some n := by
  induction ns with
  | nil => cases hn
  | cons x xs ih =>
      rw [nodesGet_cons]
      rcases List.mem_cons.mp hn with h | h
      · subst h; simp
      · by_cases hx : x.id = n.id
        · exfalso
          have : n.id ∈ xs.map Node.id := List.mem_map_of_mem Node.id h
          rw [List.map_cons, List.nodup_cons] at hnd
          exact hnd.1 (hx ▸ this)
        · rw [if_neg hx]
          exact ih (by rw [List.map_cons, List.nodup_cons] at hnd; exact hnd.2) h

theorem map_id_of_eq {α : Type} {f : α → α} :
    ∀ {l : List α}, (∀ x ∈ l, f x = x) → l.map f = l := by
  intro l
  induction l with
  | nil => intro _; rfl
  | cons x xs ih =>
      intro h
      simp only [List.map_cons, h x (by simp), ih (fun a ha => h a (by simp [ha]))]

theorem nodesReplace_eq_map {ns : List Node} (hnd : (ns.map Node.id).Nodup)
    {n1 n0 : Node} (h0 : n0 ∈ ns) (hid : n0.id = n1.id) :
    nodesReplace ns n1 = Except.ok (ns.map (fun x => if x.id = n1.id then n1 else x)) := by
  induction ns with
  | nil => cases h0
  | cons x xs ih =>
      rw [List.map_cons, List.nodup_cons] at hnd
      by_cases hx : x.id = n1.id
      · have hxs : xs.map (fun y => if y.id = n1.id then n1 else y) = xs := by
          refine map_id_of_eq ?_
          intro y hy
          have : y.id ≠ n1.id := fun hcon => hnd.1 (by
            rw [← hx] at hcon
            exact hcon ▸ List.mem_map_of_mem Node.id hy)
          simp [this]
        simp [nodesReplace, List.any_cons, hx, setFirst, hxs]
      · have h : n0 ∈ xs := by
          rcases List.mem_cons.mp h0 with h | h
          · exact absurd (h ▸ hid) hx
          · exact h
        have hany0 : xs.any (fun m => m.id == n1.id) = true :=
          List.any_eq_true.mpr ⟨n0, h, by simp [hid]⟩
        have ihx := ih hnd.2 h
        have htail : setFirst (fun m => m.id == n1.id) (fun _ => n1) xs
            = xs.map (fun y => if y.id = n1.id then n1 else y) := by
          simpa [nodesReplace, hany0] using ihx
        simp [nodesReplace, List.any_cons, hany0, setFirst, hx, htail]

theorem mapME_congr {α β : Type} {f g : α → Except MergeError β} :
    ∀ {xs : List α}, (∀ x ∈ xs, f x = g x) → mapME f xs = mapME g xs := by
  intro xs
  induction xs with
  | nil => intro _; rfl
  | cons x xs ih =>
      intro h
      simp only [mapME, h x (by simp), ih (fun a ha => h a (by simp [ha]))]

/-
  Lemmas: the topology scan.
-/

theorem sceneMatchLoop_true {ns : List Node} {m : LODMap} :
    ∀ {pairs : List (Scene × Scene)} {acc : Nat} {flag : Bool} {x : Nat},
      sceneMatchLoop ns m pairs acc flag = Except.ok (true, x) →
      (∀ pr ∈ pairs, scenePairOk pr.1 pr.2 = true) ∧ (pairs = [] → flag = true) := by
  intro pairs
  induction pairs with
  | nil =>
      intro acc flag x h
      simp only [sceneMatchLoop, Except.ok.injEq, Prod.mk.injEq] at h
      exact ⟨fun pr hpr => absurd hpr (by simp), fun _ => h.1⟩
  | cons pl rest ih =>
      intro acc flag x h
      obtain ⟨p, l⟩ := pl
      simp only [sceneMatchLoop] at h
      by_cases hok : scenePairOk p l
      · rw [if_pos hok] at h
        cases hh : p.nodes.head? with
        | none => simp [hh] at h
        | some rootId =>
            simp only [hh] at h
            cases hg : nodesGet ns rootId with
            | none => simp [hg] at h
            | some rootNode =>
                simp only [hg] at h
                cases hl : lodAt m rootNode.id with
                | none => simp [hl] at h
                | some chain =>
                    simp only [hl] at h
                    obtain ⟨hall, _⟩ := ih h
                    refine ⟨?_, by intro hcon; cases hcon⟩
                    intro pr hpr
                    rcases List.mem_cons.mp hpr with hpr | hpr
                    · rw [hpr]; exact hok
                    · exact hall pr hpr
      · rw [if_neg hok] at h
        exact absurd h (by simp)

theorem sceneMatchLoop_flag_of_all {ns : List Node} {m : LODMap} :
    ∀ {pairs : List (Scene × Scene)} {acc : Nat} {flag b : Bool} {x : Nat},
      (∀ pr ∈ pairs, scenePairOk pr.1 pr.2 = true) → pairs ≠ [] →
      sceneMatchLoop ns m pairs acc flag = Except.ok (b, x) → b = true := by
  intro pairs
  induction pairs with
  | nil => intro _ _ _ _ _ hne _; exact absurd rfl hne
  | cons pl rest ih =>
      intro acc flag b x hall _ h
      obtain ⟨p, l⟩ := pl
      simp only [sceneMatchLoop] at h
      rw [if_pos (hall (p, l) (by simp))] at h
      cases hh : p.nodes.head? with
      | none => simp [hh] at h
      | some rootId =>
          simp only [hh] at h
          cases hg : nodesGet ns rootId with
          | none => simp [hg] at h
          | some rootNode =>
              simp only [hg] at h
              cases hl : lodAt m rootNode.id with
              | none => simp [hl] at h
              | some chain =>
                  simp only [hl] at h
                  cases hrest : rest with
                  | nil =>
                      rw [hrest] at h
                      simp only [sceneMatchLoop, Except.ok.injEq, Prod.mk.injEq] at h
                      exact h.1.symm
                  | cons y ys =>
                      refine ih (fun pr hpr => hall pr (List.mem_cons_of_mem _ hpr)) ?_ h
                      rw [hrest]; simp

theorem sceneMatchLoop_error_not_topo {ns : List Node} {m : LODMap} :
    ∀ {pairs : List (Scene × Scene)} {acc : Nat} {flag : Bool},
      sceneMatchLoop ns m pairs acc flag ≠ Except.error MergeError.topologyMismatch := by
  intro pairs
  induction pairs with
  | nil => intro acc flag h; exact absurd h (by simp [sceneMatchLoop])
  | cons pl rest ih =>
      intro acc flag h
      obtain ⟨p, l⟩ := pl
      simp only [sceneMatchLoop] at h
      by_cases hok : scenePairOk p l
      · rw [if_pos hok] at h
        cases hh : p.nodes.head? with
        | none => simp [hh] at h
        | some rootId =>
            simp only [hh] at h
            cases hg : nodesGet ns rootId with
            | none => simp [hg] at h
            | some rootNode =>
                simp only [hg] at h
                cases hl : lodAt m rootNode.id with
                | none => simp [hl] at h
                | some chain => simp only [hl] at h; exact ih h
      · rw [if_neg hok] at h
        exact absurd h (by simp)

/-
  Lemmas: decomposition of a successful merge step.
-/

theorem mergeNode_ok_extensions {label : String} {nodeOffset meshOffset : Nat}
    {x y : Node} (h : mergeNode label nodeOffset meshOffset x = Except.ok y) :
    y.extensions = x.extensions ∧ y.extras = x.extras := by
  unfold mergeNode at h
  cases h1 : AddIndexOffset x.id nodeOffset with
  | error e => simp [h1] at h
  | ok id =>
      simp only [h1] at h
      cases h2 : AddIndexOffset x.meshId meshOffset with
      | error e => simp [h2] at h
      | ok meshId =>
          simp only [h2] at h
          cases h3 : mapME (fun c => AddIndexOffset c nodeOffset) x.children with
          | error e => simp [h3] at h
          | ok children =>
              simp only [h3] at h
              simp only [Except.ok.injEq] at h
              subst h
              exact ⟨rfl, rfl⟩

theorem mergeAllCollections_parts {label : String} {p c d : GLTFDocument}
    (h : mergeAllCollections label p c = Except.ok d) :
    d.scenes = p.scenes ∧
    d.buffers.length = p.buffers.length + c.buffers.length ∧
    d.samplers.length = p.samplers.length + c.samplers.length ∧
    d.bufferViews.length = p.bufferViews.length + c.bufferViews.length ∧
    d.accessors.length = p.accessors.length + c.accessors.length ∧
    d.images.length = p.images.length + c.images.length ∧
    d.textures.length = p.textures.length + c.textures.length ∧
    d.materials.length = p.materials.length + c.materials.length ∧
    d.meshes.length = p.meshes.length + c.meshes.length ∧
    d.nodes.length = p.nodes.length + c.nodes.length ∧
    ∃ nn, d.nodes = p.nodes ++ nn ∧
      List.Forall₂ (fun x y => mergeNode label p.nodes.length p.meshes.length x = Except.ok y)
        c.nodes nn := by
  unfold mergeAllCollections at h
  cases h1 : mapME (mergeBuffer p.buffers.length) c.buffers with
  | error e => simp [h1] at h
  | ok nb =>
  simp only [h1] at h
  cases h2 : mapME (mergeSampler p.samplers.length) c.samplers with
  | error e => simp [h2] at h
  | ok nsam =>
  simp only [h2] at h
  cases h3 : mapME (mergeBufferView p.bufferViews.length p.buffers.length) c.bufferViews with
  | error e => simp [h3] at h
  | ok nbv =>
  simp only [h3] at h
  cases h4 : mapME (mergeAccessor p.accessors.length p.bufferViews.length) c.accessors with
  | error e => simp [h4] at h
  | ok na =>
  simp only [h4] at h
  cases h5 : mapME (mergeImage p.images.length p.bufferViews.length) c.images with
  | error e => simp [h5] at h
  | ok ni =>
  simp only [h5] at h
  cases h6 : mapME (mergeTexture p.textures.length p.samplers.length p.images.length) c.textures with
  | error e => simp [h6] at h
  | ok nt =>
  simp only [h6] at h
  cases h7 : mapME (mergeMaterial label p.materials.length p.textures.length) c.materials with
  | error e => simp [h7] at h
  | ok nmat =>
  simp only [h7] at h
  cases h8 : mapME (mergeMesh label p.meshes.length p.accessors.length p.materials.length) c.meshes with
  | error e => simp [h8] at h
  | ok nme =>
  simp only [h8] at h
  cases h9 : mapME (mergeNode label p.nodes.length p.meshes.length) c.nodes with
  | error e => simp [h9] at h
  | ok nn =>
  simp only [h9] at h
  simp only [Except.ok.injEq] at h
  subst h
  refine ⟨rfl, ?_, ?_, ?_, ?_, ?_, ?_, ?_, ?_, ?_, nn, rfl, mapME_ok_forall2 h9⟩
  all_goals simp [mapME_ok_length h1, mapME_ok_length h2, mapME_ok_length h3,
    mapME_ok_length h4, mapME_ok_length h5, mapME_ok_length h6, mapME_ok_length h7,
    mapME_ok_length h8, mapME_ok_length h9]

theorem addLOD_ok_parts {p c : GLTFDocument} {m m1 : LODMap} {d : GLTFDocument}
    (h : AddGLTFNodeLOD p m c = (m1, Except.ok d)) :
    ∃ x, scanScenes p c m = Except.ok (true, x) ∧
      mergeAllCollections ("_lod" ++ toString (x + 1)) p c = Except.ok d ∧
      registryLoop d.nodes p.nodes.length m (p.scenes.zip c.scenes) = (m1, Except.ok ()) ∧
      p.scenes ≠ [] := by
  unfold AddGLTFNodeLOD at h
  cases hs : scanScenes p c m with
  | error e => simp [hs] at h
  | ok fx =>
      simp only [hs] at h
      obtain ⟨flag, x⟩ := fx
      by_cases hflag : (!flag || p.scenes.isEmpty) = true
      · rw [if_pos hflag] at h; simp at h
      · rw [if_neg hflag] at h
        have hflagT : flag = true := by
          cases flag
          · exact absurd (by simp) hflag
          · rfl
        have hne : p.scenes ≠ [] := by
          intro hcon
          exact hflag (by simp [hcon])
        subst hflagT
        cases hmc : mergeAllCollections ("_lod" ++ toString (x + 1)) p c with
        | error e => simp [hmc] at h
        | ok merged =>
            simp only [hmc] at h
            cases hrl : registryLoop merged.nodes p.nodes.length m (p.scenes.zip c.scenes) with
            | mk lods1 r =>
                simp only [hrl] at h
                cases r with
                | error e => simp at h
                | ok u =>
                    cases u
                    simp only [Prod.mk.injEq, Except.ok.injEq] at h
                    obtain ⟨hm1, hd⟩ := h
                    subst hm1
                    subst hd
                    exact ⟨x, rfl, hmc, by rw [hrl], hne⟩


/-
  Lemmas: the registry update of a merge step.
-/

theorem lodAt_lodAppend_isSome (m : LODMap) (k v k1 : String) :
    (lodAt (lodAppend m k v) k1).isSome = (lodAt m k1).isSome := by
  rw [lodAt_lodAppend]
  by_cases hk : k1 = k
  · rw [if_pos hk, hk]
    cases lodAt m k <;> simp
  · rw [if_neg hk]

theorem rootPairsLoop_ok {docNodes : List Node} {off : Nat} :
    ∀ {prs : List (String × String)} {m m1 : LODMap},
      rootPairsLoop docNodes off m prs = (m1, Except.ok ()) →
      (∀ pr ∈ prs, (stoi pr.2).isSome ∧ (lodAt m pr.1).isSome) ∧
      ∀ k, lodAt m1 k = (lodAt m k).map (fun ch => ch ++ appendedIds off prs k) := by
  intro prs
  induction prs with
  | nil =>
      intro m m1 h
      simp only [rootPairsLoop, Prod.mk.injEq] at h
      obtain ⟨hm, _⟩ := h
      subst hm
      refine ⟨fun pr hpr => absurd hpr (by simp), ?_⟩
      intro k
      simp only [appendedIds, List.filterMap_nil]
      cases lodAt m k <;> simp
  | cons pl rest ih =>
      intro m m1 h
      obtain ⟨pid, lid⟩ := pl
      simp only [rootPairsLoop] at h
      cases hg : nodesGet docNodes pid with
      | none => simp [hg] at h
      | some nodeWithLods =>
          simp only [hg] at h
          cases hst : stoi lid with
          | none => simp [hst] at h
          | some v =>
              simp only [hst] at h
              cases hl : lodAt m nodeWithLods.id with
              | none => simp [hl] at h
              | some ch =>
                  simp only [hl] at h
                  have hid : nodeWithLods.id = pid := nodesGet_eq_id hg
                  rw [hid] at hl
                  obtain ⟨hall, heff⟩ := ih h
                  refine ⟨?_, ?_⟩
                  · intro pr hpr
                    rcases List.mem_cons.mp hpr with hpr | hpr
                    · subst hpr
                      exact ⟨by simp [hst], by simp [hl]⟩
                    · obtain ⟨h1, h2⟩ := hall pr hpr
                      refine ⟨h1, ?_⟩
                      rw [← lodAt_lodAppend_isSome m nodeWithLods.id (toString (v + (off : Int))) pr.1]
                      exact h2
                  · intro k
                    have heffk := heff k
                    rw [hid] at heffk
                    rw [heffk, lodAt_lodAppend]
                    by_cases hk : k = pid
                    · rw [if_pos hk]
                      subst hk
                      have happ : appendedIds off ((k, lid) :: rest) k
                          = toString (v + (off : Int)) :: appendedIds off rest k := by
                        simp [appendedIds, List.filterMap_cons, hst]
                      rw [happ]
                      cases lodAt m k <;> simp
                    · rw [if_neg hk]
                      have hpk : ¬ pid = k := fun hx => hk hx.symm
                      have happ : appendedIds off ((pid, lid) :: rest) k
                          = appendedIds off rest k := by
                        simp [appendedIds, List.filterMap_cons, hpk]
                      rw [happ]

theorem registryLoop_ok {docNodes : List Node} {off : Nat} :
    ∀ {sps : List (Scene × Scene)} {m m1 : LODMap},
      registryLoop docNodes off m sps = (m1, Except.ok ()) →
      (∀ sp ∈ sps, ∀ pr ∈ sp.1.nodes.zip sp.2.nodes, (stoi pr.2).isSome) ∧
      ∀ k, lodAt m1 k = (lodAt m k).map (fun ch =>
        ch ++ appendedIds off ((sps.map (fun sp => sp.1.nodes.zip sp.2.nodes)).flatten) k) := by
  intro sps
  induction sps with
  | nil =>
      intro m m1 h
      simp only [registryLoop, Prod.mk.injEq] at h
      obtain ⟨hm, _⟩ := h
      subst hm
      refine ⟨fun sp hsp => absurd hsp (by simp), ?_⟩
      intro k
      simp only [List.map_nil, List.flatten_nil, appendedIds, List.filterMap_nil]
      cases lodAt m k <;> simp
  | cons pl rest ih =>
      intro m m1 h
      obtain ⟨p, l⟩ := pl
      simp only [registryLoop] at h
      cases hrp : rootPairsLoop docNodes off m (p.nodes.zip l.nodes) with
      | mk m2 r =>
          simp only [hrp] at h
          cases r with
          | error e => simp at h
          | ok u =>
              cases u
              replace h : registryLoop docNodes off m2 rest = (m1, Except.ok ()) := h
              obtain ⟨hall1, heff1⟩ := rootPairsLoop_ok hrp
              obtain ⟨hall2, heff2⟩ := ih h
              refine ⟨?_, ?_⟩
              · intro sp hsp pr hpr
                rcases List.mem_cons.mp hsp with hsp | hsp
                · subst hsp
                  exact (hall1 pr hpr).1
                · exact hall2 sp hsp pr hpr
              · intro k
                rw [heff2 k, heff1 k]
                have happ : appendedIds off
                    ((((p, l) :: rest).map (fun sp => sp.1.nodes.zip sp.2.nodes)).flatten) k
                    = appendedIds off (p.nodes.zip l.nodes) k
                      ++ appendedIds off ((rest.map (fun sp => sp.1.nodes.zip sp.2.nodes)).flatten) k := by
                  simp [appendedIds, List.filterMap_append]
                rw [happ]
                cases lodAt m k <;> simp

/-
  Lemmas: the topology predicate.
-/

theorem scan_true_topologyOkay {p c : GLTFDocument} {m : LODMap} {x : Nat}
    (hs : scanScenes p c m = Except.ok (true, x)) (hne : p.scenes ≠ []) :
    topologyOkay p c = true ∧ p.scenes.length = c.scenes.length := by
  unfold scanScenes at hs
  by_cases hlen : p.scenes.length == c.scenes.length
  · rw [if_pos hlen] at hs
    obtain ⟨hall, _⟩ := sceneMatchLoop_true hs
    have hlen1 : p.scenes.length = c.scenes.length := by simpa using hlen
    constructor
    · unfold topologyOkay
      rw [Bool.and_eq_true, Bool.and_eq_true]
      refine ⟨⟨by simpa using hlen1, ?_⟩, ?_⟩
      · simp [List.isEmpty_iff, hne]
      · rw [List.all_eq_true]
        intro pr hpr
        exact hall pr hpr
    · exact hlen1
  · rw [if_neg hlen] at hs
    simp at hs

theorem addLOD_mismatch {p c : GLTFDocument} (m : LODMap)
    (h : topologyOkay p c = false) :
    ∃ e, AddGLTFNodeLOD p m c = (m, Except.error e) := by
  cases hres : AddGLTFNodeLOD p m c with
  | mk mr r =>
      unfold AddGLTFNodeLOD at hres
      cases hs : scanScenes p c m with
      | error e =>
          simp only [hs] at hres
          exact ⟨e, hres.symm⟩
      | ok fx =>
          obtain ⟨flag, x⟩ := fx
          simp only [hs] at hres
          by_cases hflag : (!flag || p.scenes.isEmpty) = true
          · rw [if_pos hflag] at hres
            exact ⟨MergeError.topologyMismatch, hres.symm⟩
          · exfalso
            have hflagT : flag = true := by
              cases flag
              · exact absurd (by simp) hflag
              · rfl
            have hne : p.scenes ≠ [] := by
              intro hcon
              exact hflag (by simp [hcon])
            subst hflagT
            rw [(scan_true_topologyOkay hs hne).1] at h
            cases h

/-
  Lemmas: merging an all-empty candidate (the scan never matches).
-/

theorem addLOD_empty_scenes {p c : GLTFDocument} (m : LODMap) (hc : c.scenes = []) :
    AddGLTFNodeLOD p m c = (m, Except.error MergeError.topologyMismatch) := by
  have hs : scanScenes p c m = Except.ok (false, 0) := by
    unfold scanScenes
    by_cases hlen : (p.scenes.length == c.scenes.length) = true
    · rw [if_pos hlen]
      have hp : p.scenes = [] := by
        rw [hc] at hlen
        exact List.length_eq_zero.mp (by simpa using hlen)
      rw [hp, hc]
      simp [sceneMatchLoop]
    · rw [if_neg hlen]
  cases hres : AddGLTFNodeLOD p m c with
  | mk mr r =>
      unfold AddGLTFNodeLOD at hres
      simp only [hs] at hres
      rw [if_pos (by simp)] at hres
      exact hres.symm

/-
  Lemmas: no stage past the topology gate ever raises TopologyMismatch.
-/

theorem addIndexOffset_not_topo (id : String) (off : Nat) :
    AddIndexOffset id off ≠ Except.error MergeError.topologyMismatch := by
  intro h
  unfold AddIndexOffset at h
  by_cases he : id.isEmpty = true
  · rw [if_pos he] at h; cases h
  · rw [if_neg he] at h
    cases hst : stoi id with
    | none => simp [hst] at h
    | some n => simp [hst] at h

theorem addIndexOffsetPacked_not_topo (j : Json) (tid : String) (off : Nat) :
    AddIndexOffsetPacked j tid off ≠ Except.error MergeError.topologyMismatch := by
  intro h
  cases j with
  | jobj fields =>
      simp only [AddIndexOffsetPacked] at h
      cases h1 : jsonObjFind fields tid with
      | none => simp [h1] at h
      | some w =>
          simp only [h1] at h
          cases w with
          | jobj inner =>
              cases h2 : jsonObjFind inner "index" with
              | none => simp [h2] at h
              | some w2 =>
                  simp only [h2] at h
                  cases w2 <;> simp at h
          | jnum n => simp at h
          | jreal q => simp at h
          | jstr s => simp at h
          | jbool b => simp at h
          | jnull => simp at h
          | jarr elems => simp at h
  | jnum n => simp [AddIndexOffsetPacked] at h
  | jreal q => simp [AddIndexOffsetPacked] at h
  | jstr s => simp [AddIndexOffsetPacked] at h
  | jbool b => simp [AddIndexOffsetPacked] at h
  | jnull => simp [AddIndexOffsetPacked] at h
  | jarr elems => simp [AddIndexOffsetPacked] at h

theorem mapME_not_topo {α β : Type} {f : α → Except MergeError β}
    (hf : ∀ x, f x ≠ Except.error MergeError.topologyMismatch) (xs : List α) :
    mapME f xs ≠ Except.error MergeError.topologyMismatch := by
  intro h
  obtain ⟨x, _, hx⟩ := mapME_error_mem h
  exact hf x hx

theorem patchDds_not_topo (exts : ExtMap) (off : Nat) :
    patchDdsExtension exts off ≠ Except.error MergeError.topologyMismatch := by
  intro h
  unfold patchDdsExtension at h
  cases h0 : extFind exts EXTENSION_MSFT_TEXTURE_DDS with
  | none => simp [h0] at h
  | some pl =>
      simp only [h0] at h
      cases pl with
      | none => simp at h
      | some ddsJson =>
          cases ddsJson with
          | jobj fields =>
              cases h1 : jsonObjFind fields "source" with
              | none => simp [h1] at h
              | some w =>
                  simp only [h1] at h
                  cases w <;> simp at h
          | jnum n => simp at h
          | jreal q => simp at h
          | jstr s => simp at h
          | jbool b => simp at h
          | jnull => simp at h
          | jarr elems => simp at h

theorem patchOrm_not_topo (exts : ExtMap) (off : Nat) :
    patchOrmExtension exts off ≠ Except.error MergeError.topologyMismatch := by
  intro h
  unfold patchOrmExtension at h
  cases h0 : extFind exts EXTENSION_MSFT_PACKING_ORM with
  | none => simp [h0] at h
  | some pl =>
      simp only [h0] at h
      cases pl with
      | none => simp at h
      | some ormJson =>
          cases h1 : AddIndexOffsetPacked ormJson "occlusionRoughnessMetallicTexture" off with
          | error e =>
              simp only [h1] at h
              injection h with h'
              rw [h'] at h1
              exact addIndexOffsetPacked_not_topo _ _ _ h1
          | ok j1 =>
              simp only [h1] at h
              cases h2 : AddIndexOffsetPacked j1 "roughnessMetallicOcclusionTexture" off with
              | error e =>
                  simp only [h2] at h
                  injection h with h'
                  rw [h'] at h2
                  exact addIndexOffsetPacked_not_topo _ _ _ h2
              | ok j2 =>
                  simp only [h2] at h
                  cases h3 : AddIndexOffsetPacked j2 "normalTexture" off with
                  | error e =>
                      simp only [h3] at h
                      injection h with h'
                      rw [h'] at h3
                      exact addIndexOffsetPacked_not_topo _ _ _ h3
                  | ok j3 => simp [h3] at h

theorem mergeBuffer_not_topo (off : Nat) (b : Buffer) :
    mergeBuffer off b ≠ Except.error MergeError.topologyMismatch := by
  intro h
  unfold mergeBuffer at h
  cases h1 : AddIndexOffset b.id off with
  | error e =>
      simp only [h1] at h
      injection h with h'
      rw [h'] at h1
      exact addIndexOffset_not_topo _ _ h1
  | ok v1 =>
      simp [h1] at h

theorem mergeSampler_not_topo (off : Nat) (s : Sampler) :
    mergeSampler off s ≠ Except.error MergeError.topologyMismatch := by
  intro h
  unfold mergeSampler at h
  cases h1 : AddIndexOffset s.id off with
  | error e =>
      simp only [h1] at h
      injection h with h'
      rw [h'] at h1
      exact addIndexOffset_not_topo _ _ h1
  | ok v1 =>
      simp [h1] at h

theorem mergeBufferView_not_topo (o1 o2 : Nat) (bv : BufferView) :
    mergeBufferView o1 o2 bv ≠ Except.error MergeError.topologyMismatch := by
  intro h
  unfold mergeBufferView at h
  cases h1 : AddIndexOffset bv.id o1 with
  | error e =>
      simp only [h1] at h
      injection h with h'
      rw [h'] at h1
      exact addIndexOffset_not_topo _ _ h1
  | ok v1 =>
      simp only [h1] at h
      cases h2 : AddIndexOffset bv.bufferId o2 with
      | error e =>
          simp only [h2] at h
          injection h with h'
          rw [h'] at h2
          exact addIndexOffset_not_topo _ _ h2
      | ok v2 =>
          simp [h2] at h

theorem mergeAccessor_not_topo (o1 o2 : Nat) (a : Accessor) :
    mergeAccessor o1 o2 a ≠ Except.error MergeError.topologyMismatch := by
  intro h
  unfold mergeAccessor at h
  cases h1 : AddIndexOffset a.id o1 with
  | error e =>
      simp only [h1] at h
      injection h with h'
      rw [h'] at h1
      exact addIndexOffset_not_topo _ _ h1
  | ok v1 =>
      simp only [h1] at h
      cases h2 : AddIndexOffset a.bufferViewId o2 with
      | error e =>
          simp only [h2] at h
          injection h with h'
          rw [h'] at h2
          exact addIndexOffset_not_topo _ _ h2
      | ok v2 =>
          simp [h2] at h

theorem mergeImage_not_topo (o1 o2 : Nat) (im : Image) :
    mergeImage o1 o2 im ≠ Except.error MergeError.topologyMismatch := by
  intro h
  unfold mergeImage at h
  cases h1 : AddIndexOffset im.id o1 with
  | error e =>
      simp only [h1] at h
      injection h with h'
      rw [h'] at h1
      exact addIndexOffset_not_topo _ _ h1
  | ok v1 =>
      simp only [h1] at h
      cases h2 : AddIndexOffset im.bufferViewId o2 with
      | error e =>
          simp only [h2] at h
          injection h with h'
          rw [h'] at h2
          exact addIndexOffset_not_topo _ _ h2
      | ok v2 =>
          simp [h2] at h

theorem mergeTexture_not_topo (o1 o2 o3 : Nat) (t : Texture) :
    mergeTexture o1 o2 o3 t ≠ Except.error MergeError.topologyMismatch := by
  intro h
  unfold mergeTexture at h
  cases h1 : AddIndexOffset t.id o1 with
  | error e =>
      simp only [h1] at h
      injection h with h'
      rw [h'] at h1
      exact addIndexOffset_not_topo _ _ h1
  | ok v1 =>
      simp only [h1] at h
      cases h2 : AddIndexOffset t.samplerId o2 with
      | error e =>
          simp only [h2] at h
          injection h with h'
          rw [h'] at h2
          exact addIndexOffset_not_topo _ _ h2
      | ok v2 =>
          simp only [h2] at h
          cases h3 : AddIndexOffset t.imageId o3 with
          | error e =>
              simp only [h3] at h
              injection h with h'
              rw [h'] at h3
              exact addIndexOffset_not_topo _ _ h3
          | ok v3 =>
              simp only [h3] at h
              cases h4 : patchDdsExtension t.extensions o3 with
              | error e =>
                  simp only [h4] at h
                  injection h with h'
                  rw [h'] at h4
                  exact patchDds_not_topo _ _ h4
              | ok v4 =>
                  simp [h4] at h

theorem mergeMaterial_not_topo (lb : String) (o1 o2 : Nat) (mt : Material) :
    mergeMaterial lb o1 o2 mt ≠ Except.error MergeError.topologyMismatch := by
  intro h
  unfold mergeMaterial at h
  cases h1 : AddIndexOffset mt.id o1 with
  | error e =>
      simp only [h1] at h
      injection h with h'
      rw [h'] at h1
      exact addIndexOffset_not_topo _ _ h1
  | ok v1 =>
      simp only [h1] at h
      cases h2 : AddIndexOffset mt.normalTexture.id o2 with
      | error e =>
          simp only [h2] at h
          injection h with h'
          rw [h'] at h2
          exact addIndexOffset_not_topo _ _ h2
      | ok v2 =>
          simp only [h2] at h
          cases h3 : AddIndexOffset mt.occlusionTexture.id o2 with
          | error e =>
              simp only [h3] at h
              injection h with h'
              rw [h'] at h3
              exact addIndexOffset_not_topo _ _ h3
          | ok v3 =>
              simp only [h3] at h
              cases h4 : AddIndexOffset mt.emissiveTextureId o2 with
              | error e =>
                  simp only [h4] at h
                  injection h with h'
                  rw [h'] at h4
                  exact addIndexOffset_not_topo _ _ h4
              | ok v4 =>
                  simp only [h4] at h
                  cases h5 : AddIndexOffset mt.metallicRoughness.baseColorTextureId o2 with
                  | error e =>
                      simp only [h5] at h
                      injection h with h'
                      rw [h'] at h5
                      exact addIndexOffset_not_topo _ _ h5
                  | ok v5 =>
                      simp only [h5] at h
                      cases h6 : AddIndexOffset mt.metallicRoughness.metallicRoughnessTextureId o2 with
                      | error e =>
                          simp only [h6] at h
                          injection h with h'
                          rw [h'] at h6
                          exact addIndexOffset_not_topo _ _ h6
                      | ok v6 =>
                          simp only [h6] at h
                          cases h7 : AddIndexOffset mt.specularGlossiness.diffuseTextureId o2 with
                          | error e =>
                              simp only [h7] at h
                              injection h with h'
                              rw [h'] at h7
                              exact addIndexOffset_not_topo _ _ h7
                          | ok v7 =>
                              simp only [h7] at h
                              cases h8 : AddIndexOffset mt.specularGlossiness.specularGlossinessTextureId o2 with
                              | error e =>
                                  simp only [h8] at h
                                  injection h with h'
                                  rw [h'] at h8
                                  exact addIndexOffset_not_topo _ _ h8
                              | ok v8 =>
                                  simp only [h8] at h
                                  cases h9 : patchOrmExtension mt.extensions o2 with
                                  | error e =>
                                      simp only [h9] at h
                                      injection h with h'
                                      rw [h'] at h9
                                      exact patchOrm_not_topo _ _ h9
                                  | ok v9 =>
                                      simp [h9] at h

theorem mergePrimitive_not_topo (o1 o2 : Nat) (pr : MeshPrimitive) :
    mergePrimitive o1 o2 pr ≠ Except.error MergeError.topologyMismatch := by
  intro h
  unfold mergePrimitive at h
  cases h1 : AddIndexOffset pr.positionsAccessorId o1 with
  | error e =>
      simp only [h1] at h
      injection h with h'
      rw [h'] at h1
      exact addIndexOffset_not_topo _ _ h1
  | ok v1 =>
      simp only [h1] at h
      cases h2 : AddIndexOffset pr.normalsAccessorId o1 with
      | error e =>
          simp only [h2] at h
          injection h with h'
          rw [h'] at h2
          exact addIndexOffset_not_topo _ _ h2
      | ok v2 =>
          simp only [h2] at h
          cases h3 : AddIndexOffset pr.indicesAccessorId o1 with
          | error e =>
              simp only [h3] at h
              injection h with h'
              rw [h'] at h3
              exact addIndexOffset_not_topo _ _ h3
          | ok v3 =>
              simp only [h3] at h
              cases h4 : AddIndexOffset pr.uv0AccessorId o1 with
              | error e =>
                  simp only [h4] at h
                  injection h with h'
                  rw [h'] at h4
                  exact addIndexOffset_not_topo _ _ h4
              | ok v4 =>
                  simp only [h4] at h
                  cases h5 : AddIndexOffset pr.uv1AccessorId o1 with
                  | error e =>
                      simp only [h5] at h
                      injection h with h'
                      rw [h'] at h5
                      exact addIndexOffset_not_topo _ _ h5
                  | ok v5 =>
                      simp only [h5] at h
                      cases h6 : AddIndexOffset pr.color0AccessorId o1 with
                      | error e =>
                          simp only [h6] at h
                          injection h with h'
                          rw [h'] at h6
                          exact addIndexOffset_not_topo _ _ h6
                      | ok v6 =>
                          simp only [h6] at h
                          cases h7 : AddIndexOffset pr.materialId o2 with
                          | error e =>
                              simp only [h7] at h
                              injection h with h'
                              rw [h'] at h7
                              exact addIndexOffset_not_topo _ _ h7
                          | ok v7 =>
                              simp [h7] at h

theorem mergeMesh_not_topo (lb : String) (o1 o2 o3 : Nat) (ms : Mesh) :
    mergeMesh lb o1 o2 o3 ms ≠ Except.error MergeError.topologyMismatch := by
  intro h
  unfold mergeMesh at h
  cases h1 : AddIndexOffset ms.id o1 with
  | error e =>
      simp only [h1] at h
      injection h with h'
      rw [h'] at h1
      exact addIndexOffset_not_topo _ _ h1
  | ok v1 =>
      simp only [h1] at h
      cases h2 : mapME (mergePrimitive o2 o3) ms.primitives with
      | error e =>
          simp only [h2] at h
          injection h with h'
          rw [h'] at h2
          exact mapME_not_topo (fun x => mergePrimitive_not_topo o2 o3 x) _ h2
      | ok v2 =>
          simp [h2] at h

theorem mergeNode_not_topo (lb : String) (o1 o2 : Nat) (nd : Node) :
    mergeNode lb o1 o2 nd ≠ Except.error MergeError.topologyMismatch := by
  intro h
  unfold mergeNode at h
  cases h1 : AddIndexOffset nd.id o1 with
  | error e =>
      simp only [h1] at h
      injection h with h'
      rw [h'] at h1
      exact addIndexOffset_not_topo _ _ h1
  | ok v1 =>
      simp only [h1] at h
      cases h2 : AddIndexOffset nd.meshId o2 with
      | error e =>
          simp only [h2] at h
          injection h with h'
          rw [h'] at h2
          exact addIndexOffset_not_topo _ _ h2
      | ok v2 =>
          simp only [h2] at h
          cases h3 : mapME (fun c => AddIndexOffset c o1) nd.children with
          | error e =>
              simp only [h3] at h
              injection h with h'
              rw [h'] at h3
              exact mapME_not_topo (fun x => addIndexOffset_not_topo x o1) _ h3
          | ok v3 =>
              simp [h3] at h

theorem mergeAllCollections_not_topo (lb : String) (p c : GLTFDocument) :
    mergeAllCollections lb p c ≠ Except.error MergeError.topologyMismatch := by
  intro h
  unfold mergeAllCollections at h
  cases h1 : mapME (mergeBuffer p.buffers.length) c.buffers with
  | error e =>
      simp only [h1] at h
      injection h with h'
      rw [h'] at h1
      exact mapME_not_topo (fun x => mergeBuffer_not_topo _ x) _ h1
  | ok v1 =>
      simp only [h1] at h
      cases h2 : mapME (mergeSampler p.samplers.length) c.samplers with
      | error e =>
          simp only [h2] at h
          injection h with h'
          rw [h'] at h2
          exact mapME_not_topo (fun x => mergeSampler_not_topo _ x) _ h2
      | ok v2 =>
          simp only [h2] at h
          cases h3 : mapME (mergeBufferView p.bufferViews.length p.buffers.length) c.bufferViews with
          | error e =>
              simp only [h3] at h
              injection h with h'
              rw [h'] at h3
              exact mapME_not_topo (fun x => mergeBufferView_not_topo _ _ x) _ h3
          | ok v3 =>
              simp only [h3] at h
              cases h4 : mapME (mergeAccessor p.accessors.length p.bufferViews.length) c.accessors with
              | error e =>
                  simp only [h4] at h
                  injection h with h'
                  rw [h'] at h4
                  exact mapME_not_topo (fun x => mergeAccessor_not_topo _ _ x) _ h4
              | ok v4 =>
                  simp only [h4] at h
                  cases h5 : mapME (mergeImage p.images.length p.bufferViews.length) c.images with
                  | error e =>
                      simp only [h5] at h
                      injection h with h'
                      rw [h'] at h5
                      exact mapME_not_topo (fun x => mergeImage_not_topo _ _ x) _ h5
                  | ok v5 =>
                      simp only [h5] at h
                      cases h6 : mapME (mergeTexture p.textures.length p.samplers.length p.images.length) c.textures with
                      | error e =>
                          simp only [h6] at h
                          injection h with h'
                          rw [h'] at h6
                          exact mapME_not_topo (fun x => mergeTexture_not_topo _ _ _ x) _ h6
                      | ok v6 =>
                          simp only [h6] at h
                          cases h7 : mapME (mergeMaterial lb p.materials.length p.textures.length) c.materials with
                          | error e =>
                              simp only [h7] at h
                              injection h with h'
                              rw [h'] at h7
                              exact mapME_not_topo (fun x => mergeMaterial_not_topo _ _ _ x) _ h7
                          | ok v7 =>
                              simp only [h7] at h
                              cases h8 : mapME (mergeMesh lb p.meshes.length p.accessors.length p.materials.length) c.meshes with
                              | error e =>
                                  simp only [h8] at h
                                  injection h with h'
                                  rw [h'] at h8
                                  exact mapME_not_topo (fun x => mergeMesh_not_topo _ _ _ _ x) _ h8
                              | ok v8 =>
                                  simp only [h8] at h
                                  cases h9 : mapME (mergeNode lb p.nodes.length p.meshes.length) c.nodes with
                                  | error e =>
                                      simp only [h9] at h
                                      injection h with h'
                                      rw [h'] at h9
                                      exact mapME_not_topo (fun x => mergeNode_not_topo _ _ _ x) _ h9
                                  | ok v9 =>
                                      simp [h9] at h

theorem rootPairsLoop_not_topo {docNodes : List Node} {off : Nat} :
    ∀ {prs : List (String × String)} {m : LODMap},
      (rootPairsLoop docNodes off m prs).2 ≠ Except.error MergeError.topologyMismatch := by
  intro prs
  induction prs with
  | nil => intro m h; simp [rootPairsLoop] at h
  | cons pl rest ih =>
      intro m h
      obtain ⟨pid, lid⟩ := pl
      simp only [rootPairsLoop] at h
      cases hg : nodesGet docNodes pid with
      | none => simp [hg] at h
      | some nodeWithLods =>
          simp only [hg] at h
          cases hst : stoi lid with
          | none => simp [hst] at h
          | some v =>
              simp only [hst] at h
              cases hl : lodAt m nodeWithLods.id with
              | none => simp [hl] at h
              | some ch =>
                  simp only [hl] at h
                  exact ih h

theorem registryLoop_not_topo {docNodes : List Node} {off : Nat} :
    ∀ {sps : List (Scene × Scene)} {m : LODMap},
      (registryLoop docNodes off m sps).2 ≠ Except.error MergeError.topologyMismatch := by
  intro sps
  induction sps with
  | nil => intro m h; simp [registryLoop] at h
  | cons pl rest ih =>
      intro m h
      obtain ⟨p, l⟩ := pl
      simp only [registryLoop] at h
      cases hrp : rootPairsLoop docNodes off m (p.nodes.zip l.nodes) with
      | mk m2 r =>
          simp only [hrp] at h
          cases r with
          | error e =>
              replace h : (Except.error e : Except MergeError Unit)
                  = Except.error MergeError.topologyMismatch := h
              have := @rootPairsLoop_not_topo docNodes off (p.nodes.zip l.nodes) m
              rw [hrp] at this
              exact this h
          | ok u =>
              replace h : (registryLoop docNodes off m2 rest).2
                  = Except.error MergeError.topologyMismatch := h
              exact ih h

theorem addLOD_single_root {p c : GLTFDocument} (m : LODMap)
    (hlen : p.scenes.length = c.scenes.length)
    (hne : p.scenes ≠ [])
    (hsingle : ∀ pr ∈ p.scenes.zip c.scenes, pr.1.nodes.length = 1 ∧ pr.2.nodes.length = 1) :
    topologyOkay p c = true ∧
      (AddGLTFNodeLOD p m c).2 ≠ Except.error MergeError.topologyMismatch := by
  have hall : ∀ pr ∈ p.scenes.zip c.scenes, scenePairOk pr.1 pr.2 = true := by
    intro pr hpr
    obtain ⟨h1, h2⟩ := hsingle pr hpr
    simp [scenePairOk, h1, h2]
  constructor
  · unfold topologyOkay
    rw [Bool.and_eq_true, Bool.and_eq_true]
    refine ⟨⟨by simpa using hlen, by simp [List.isEmpty_iff, hne]⟩, ?_⟩
    rw [List.all_eq_true]
    exact hall
  · intro h
    cases hres : AddGLTFNodeLOD p m c with
    | mk mr r =>
        rw [hres] at h
        unfold AddGLTFNodeLOD at hres
        cases hs : scanScenes p c m with
        | error e =>
            have hes : e ≠ MergeError.topologyMismatch := by
              intro hcon
              subst hcon
              unfold scanScenes at hs
              rw [if_pos (by simpa using hlen)] at hs
              exact sceneMatchLoop_error_not_topo hs
            simp only [hs] at hres
            rw [← hres] at h
            simp at h
            exact hes h
        | ok fx =>
            obtain ⟨flag, x⟩ := fx
            have hzip : p.scenes.zip c.scenes ≠ [] := by
              intro hcon
              have : (p.scenes.zip c.scenes).length = min p.scenes.length c.scenes.length :=
                List.length_zip p.scenes c.scenes
              rw [hcon, ← hlen] at this
              simp [Nat.min_self] at this
              exact hne (List.length_eq_zero.mp this.symm)
            have hflagT : flag = true := by
              unfold scanScenes at hs
              rw [if_pos (by simpa using hlen)] at hs
              exact sceneMatchLoop_flag_of_all hall hzip hs
            subst hflagT
            simp only [hs] at hres
            rw [if_neg (by simp [List.isEmpty_iff, hne])] at hres
            cases hmc : mergeAllCollections ("_lod" ++ toString (x + 1)) p c with
            | error e =>
                simp only [hmc] at hres
                rw [← hres] at h
                simp only at h
                injection h with h'
                rw [h'] at hmc
                exact mergeAllCollections_not_topo _ _ _ hmc
            | ok merged =>
                simp only [hmc] at hres
                cases hrl : registryLoop merged.nodes p.nodes.length m (p.scenes.zip c.scenes) with
                | mk lods1 rr =>
                    simp only [hrl] at hres
                    cases rr with
                    | error e =>
                        replace hres : (lods1, (Except.error e : Except MergeError GLTFDocument))
                            = (mr, r) := hres
                        rw [← hres] at h
                        simp only at h
                        injection h with h'
                        have := @registryLoop_not_topo merged.nodes p.nodes.length
                          (p.scenes.zip c.scenes) m
                        rw [hrl] at this
                        exact this (by rw [h'])
                    | ok u =>
                        replace hres : (lods1, (Except.ok merged : Except MergeError GLTFDocument))
                            = (mr, r) := hres
                        rw [← hres] at h
                        simp at h

/-
  Lemmas: registry effect of a merge step in terms of the primary's roots.
-/

theorem scenePairOk_len {p l : Scene} (h : scenePairOk p l = true) :
    p.nodes.length = l.nodes.length := by
  unfold scenePairOk at h
  rw [Bool.and_eq_true] at h
  simpa using h.1

theorem forall2_mem_right {α β : Type} {R : α → β → Prop} :
    ∀ {xs : List α} {ys : List β}, List.Forall₂ R xs ys → ∀ y ∈ ys, ∃ x ∈ xs, R x y := by
  intro xs ys h
  induction h with
  | nil => intro y hy; cases hy
  | cons hR hrest ih =>
      intro y hy
      rcases List.mem_cons.mp hy with hy | hy
      · subst hy; exact ⟨_, by simp, hR⟩
      · obtain ⟨x, hx, hxy⟩ := ih y hy
        exact ⟨x, by simp [hx], hxy⟩

theorem rootPairs_fst {p c : GLTFDocument}
    (hlen : p.scenes.length = c.scenes.length)
    (hall : ∀ pr ∈ p.scenes.zip c.scenes, scenePairOk pr.1 pr.2 = true) :
    (rootPairs p c).map Prod.fst = sceneRootIds p := by
  unfold rootPairs sceneRootIds
  have haux : ∀ (ps cs : List Scene), ps.length = cs.length →
      (∀ pr ∈ ps.zip cs, scenePairOk pr.1 pr.2 = true) →
      ((ps.zip cs).map (fun pl => pl.1.nodes.zip pl.2.nodes)).flatten.map Prod.fst
        = (ps.map Scene.nodes).flatten := by
    intro ps
    induction ps with
    | nil => intro cs _ _; simp
    | cons p0 ps ih =>
        intro cs hlen1 hall1
        cases cs with
        | nil => simp at hlen1
        | cons c0 cs =>
            simp only [List.zip_cons_cons, List.map_cons, List.flatten_cons, List.map_append]
            rw [ih cs (by simpa using hlen1) (fun pr hpr => hall1 pr (by simp [hpr]))]
            have hpl : p0.nodes.length = c0.nodes.length :=
              scenePairOk_len (hall1 (p0, c0) (by simp))
            rw [List.map_fst_zip _ _ (le_of_eq hpl)]
  exact haux p.scenes c.scenes hlen hall

theorem appendedIds_length (off : Nat) {prs : List (String × String)}
    (h : ∀ pr ∈ prs, (stoi pr.2).isSome) (k : String) :
    (appendedIds off prs k).length = (prs.map Prod.fst).count k := by
  induction prs with
  | nil => simp [appendedIds]
  | cons pr rest ih =>
      obtain ⟨pid, lid⟩ := pr
      have hst : (stoi lid).isSome := h (pid, lid) (by simp)
      obtain ⟨v, hv⟩ := Option.isSome_iff_exists.mp hst
      have ihx := ih (fun q hq => h q (by simp [hq]))
      by_cases hk : pid = k
      · rw [show appendedIds off ((pid, lid) :: rest) k
            = toString (v + (off : Int)) :: appendedIds off rest k from by
          simp [appendedIds, List.filterMap_cons, hk, hv]]
        simp [List.count_cons, ihx, hk]
      · rw [show appendedIds off ((pid, lid) :: rest) k = appendedIds off rest k from by
          simp [appendedIds, List.filterMap_cons, hk]]
        simp [List.count_cons, ihx, hk]

theorem appendedIds_nil_of_not_mem (off : Nat) {prs : List (String × String)} {k : String}
    (h : k ∉ prs.map Prod.fst) : appendedIds off prs k = [] := by
  induction prs with
  | nil => rfl
  | cons pr rest ih =>
      have hk : ¬ pr.1 = k := by
        intro hcon
        exact h (by simp [hcon])
      have ihx := ih (fun hc => h (by simp at hc ⊢; exact Or.inr hc))
      simp [appendedIds, List.filterMap_cons, hk] at ihx ⊢
      exact ihx

theorem addLOD_registry_effect {p c : GLTFDocument} {m m1 : LODMap} {d : GLTFDocument}
    (h : AddGLTFNodeLOD p m c = (m1, Except.ok d)) :
    (∀ pr ∈ rootPairs p c, (stoi pr.2).isSome) ∧
    (rootPairs p c).map Prod.fst = sceneRootIds p ∧
    (∀ k, lodAt m1 k =
      (lodAt m k).map (fun ch => ch ++ appendedIds p.nodes.length (rootPairs p c) k)) := by
  obtain ⟨x, hs, hmc, hrl, hne⟩ := addLOD_ok_parts h
  obtain ⟨hall, heff⟩ := registryLoop_ok hrl
  have hstoi : ∀ pr ∈ rootPairs p c, (stoi pr.2).isSome := by
    intro pr hpr
    unfold rootPairs at hpr
    rw [List.mem_flatten] at hpr
    obtain ⟨l, hl, hprl⟩ := hpr
    rw [List.mem_map] at hl
    obtain ⟨sp, hsp, hspl⟩ := hl
    exact hall sp hsp pr (by rw [hspl]; exact hprl)
  have htop := scan_true_topologyOkay hs hne
  have hallp : ∀ pr ∈ p.scenes.zip c.scenes, scenePairOk pr.1 pr.2 = true := by
    unfold scanScenes at hs
    rw [if_pos (by simpa using htop.2)] at hs
    exact (sceneMatchLoop_true hs).1
  exact ⟨hstoi, rootPairs_fst htop.2 hallp, heff⟩

/-
  Lemmas: serialization against a target collection.
-/

theorem serialize_node_ok (lods : List String) (doc : GLTFDocument)
    (hres : ∀ lodId ∈ lods, (nodesGetIndex doc.nodes lodId).isSome) (hne : lods ≠ []) :
    SerializeExtensionMSFTLod LODTargetKind.node lods doc
      = Except.ok (some (mkIdsPayload
          (lods.map (fun lodId => (nodesGetIndex doc.nodes lodId).getD 0)))) := by
  have hmap : serializeIndices (nodesGetIndex doc.nodes) lods
      = Except.ok (lods.map (fun lodId => (nodesGetIndex doc.nodes lodId).getD 0)) := by
    refine mapME_eq_map ?_
    intro lodId hid
    obtain ⟨i, hi⟩ := Option.isSome_iff_exists.mp (hres lodId hid)
    simp [getOrErr, hi]
  unfold SerializeExtensionMSFTLod
  rw [if_neg (by simpa [List.isEmpty_iff] using hne)]
  simp only [serializeKind]
  rw [hmap]
  rfl

theorem serialize_material_ok (lods : List String) (doc : GLTFDocument)
    (hres : ∀ lodId ∈ lods, (materialsGetIndex doc.materials lodId).isSome) (hne : lods ≠ []) :
    SerializeExtensionMSFTLod LODTargetKind.material lods doc
      = Except.ok (some (mkIdsPayload
          (lods.map (fun lodId => (materialsGetIndex doc.materials lodId).getD 0)))) := by
  have hmap : serializeIndices (materialsGetIndex doc.materials) lods
      = Except.ok (lods.map (fun lodId => (materialsGetIndex doc.materials lodId).getD 0)) := by
    refine mapME_eq_map ?_
    intro lodId hid
    obtain ⟨i, hi⟩ := Option.isSome_iff_exists.mp (hres lodId hid)
    simp [getOrErr, hi]
  unfold SerializeExtensionMSFTLod
  rw [if_neg (by simpa [List.isEmpty_iff] using hne)]
  simp only [serializeKind]
  rw [hmap]
  rfl

theorem serialize_other_err (lods : List String) (doc : GLTFDocument) (hne : lods ≠ []) :
    SerializeExtensionMSFTLod LODTargetKind.other lods doc
      = Except.error MergeError.unsupportedEntityKind := by
  unfold SerializeExtensionMSFTLod
  rw [if_neg (by simpa [List.isEmpty_iff] using hne)]
  rfl

theorem serialize_empty (kind : LODTargetKind) (doc : GLTFDocument) :
    SerializeExtensionMSFTLod kind [] doc = Except.ok none := rfl

/-
  Lemmas: registry seeding and the merge fold.
-/

theorem assocFind_eq_none_iff {β : Type} {m : List (String × β)} {k : String} :
    assocFind m k = none ↔ k ∉ m.map Prod.fst := by
  induction m with
  | nil => simp [assocFind]
  | cons kv rest ih =>
      rw [assocFind_cons]
      by_cases hk : kv.1 = k
      · simp [hk]
      · rw [if_neg hk, ih]
        simp only [List.map_cons, List.mem_cons]
        constructor
        · intro h hcon
          rcases hcon with hcon | hcon
          · exact hk hcon.symm
          · exact h hcon
        · intro h hcon
          exact h (Or.inr hcon)

theorem parse_no_ext {n : Node} (h : extFind n.extensions EXTENSION_MSFT_LOD = none) :
    ParseExtensionMSFTLod n = Except.ok [] := by
  unfold ParseExtensionMSFTLod
  rw [h]

theorem parseNodesLoop_ok :
    ∀ {ns : List Node} {m0 m : LODMap}, parseNodesLoop ns m0 = Except.ok m →
      (∀ k, (lodAt m0 k).isSome → lodAt m k = lodAt m0 k) ∧
      (∀ k, lodAt m0 k = none → nodesGet ns k = none → lodAt m k = none) ∧
      (∀ k, lodAt m0 k = none → ∀ n, nodesGet ns k = some n →
        ∃ ch, ParseExtensionMSFTLod n = Except.ok ch ∧ lodAt m k = some ch) ∧
      ((m0.map Prod.fst).Nodup → (m.map Prod.fst).Nodup) := by
  intro ns
  induction ns with
  | nil =>
      intro m0 m h
      simp only [parseNodesLoop, Except.ok.injEq] at h
      subst h
      exact ⟨fun _ _ => rfl, fun _ h _ => h, fun k _ n hn => by simp [nodesGet] at hn,
        fun h => h⟩
  | cons nd rest ih =>
      intro m0 m h
      simp only [parseNodesLoop] at h
      cases hp : ParseExtensionMSFTLod nd with
      | error e => simp [hp] at h
      | ok ids =>
          simp only [hp] at h
          obtain ⟨ih1, ih2, ih3, ih4⟩ := ih h
          by_cases hpres : (lodAt m0 nd.id).isSome
          · have hem : lodEmplace m0 nd.id ids = m0 := by
              obtain ⟨w, hw⟩ := Option.isSome_iff_exists.mp hpres
              exact lodEmplace_present hw
            rw [hem] at ih1 ih2 ih3 ih4
            refine ⟨ih1, ?_, ?_, ih4⟩
            · intro k hk0 hg
              rw [nodesGet_cons] at hg
              by_cases hid : nd.id = k
              · rw [hid] at hpres
                rw [hk0] at hpres
                cases hpres
              · rw [if_neg hid] at hg
                exact ih2 k hk0 hg
            · intro k hk0 n hg
              rw [nodesGet_cons] at hg
              by_cases hid : nd.id = k
              · rw [hid] at hpres
                rw [hk0] at hpres
                cases hpres
              · rw [if_neg hid] at hg
                exact ih3 k hk0 n hg
          · have hnone : lodAt m0 nd.id = none := by
              cases hx : lodAt m0 nd.id
              · rfl
              · rw [hx] at hpres; simp at hpres
            have hemp := lodAt_lodEmplace_absent ids hnone
            refine ⟨?_, ?_, ?_, ?_⟩
            · intro k hk
              have hkid : ¬ k = nd.id := by
                intro hcon
                rw [hcon] at hk
                rw [hnone] at hk
                cases hk
              have h1 := hemp k
              rw [if_neg hkid] at h1
              rw [ih1 k (by rw [h1]; exact hk), h1]
            · intro k hk0 hg
              rw [nodesGet_cons] at hg
              by_cases hid : nd.id = k
              · rw [if_pos hid] at hg; cases hg
              · rw [if_neg hid] at hg
                have h1 := hemp k
                rw [if_neg (fun hcon : k = nd.id => hid hcon.symm)] at h1
                rw [hk0] at h1
                exact ih2 k h1 hg
            · intro k hk0 n hg
              rw [nodesGet_cons] at hg
              by_cases hid : nd.id = k
              · rw [if_pos hid] at hg
                injection hg with hg1
                subst hg1
                have h1 := hemp k
                rw [if_pos hid.symm] at h1
                exact ⟨ids, hp, by rw [ih1 k (by rw [h1]; rfl), h1]⟩
              · rw [if_neg hid] at hg
                have h1 := hemp k
                rw [if_neg (fun hcon : k = nd.id => hid hcon.symm)] at h1
                rw [hk0] at h1
                exact ih3 k h1 n hg
            · intro hnd
              refine ih4 ?_
              have hL : lodEmplace m0 nd.id ids = m0 ++ [(nd.id, ids)] := by
                simp only [lodEmplace, lodAt] at *
                simp [hnone]
              rw [hL, List.map_append]
              simp only [List.map_cons, List.map_nil]
              rw [List.nodup_append]
              refine ⟨hnd, by simp, ?_⟩
              intro a ha hb
              simp only [List.mem_singleton] at hb
              subst hb
              exact (assocFind_eq_none_iff.mp hnone) ha

theorem rootPairsLoop_keys {docNodes : List Node} {off : Nat} :
    ∀ {prs : List (String × String)} {m m1 : LODMap} {r : Except MergeError Unit},
      rootPairsLoop docNodes off m prs = (m1, r) → m1.map Prod.fst = m.map Prod.fst := by
  intro prs
  induction prs with
  | nil =>
      intro m m1 r h
      simp only [rootPairsLoop, Prod.mk.injEq] at h
      rw [← h.1]
  | cons pl rest ih =>
      intro m m1 r h
      obtain ⟨pid, lid⟩ := pl
      simp only [rootPairsLoop] at h
      cases hg : nodesGet docNodes pid with
      | none =>
          simp only [hg, Prod.mk.injEq] at h
          rw [← h.1]
      | some nodeWithLods =>
          simp only [hg] at h
          cases hst : stoi lid with
          | none =>
              simp only [hst, Prod.mk.injEq] at h
              rw [← h.1]
          | some v =>
              simp only [hst] at h
              cases hl : lodAt m nodeWithLods.id with
              | none =>
                  simp only [hl, Prod.mk.injEq] at h
                  rw [← h.1]
              | some ch =>
                  simp only [hl] at h
                  rw [ih h, lodAppend_keys]

theorem registryLoop_keys {docNodes : List Node} {off : Nat} :
    ∀ {sps : List (Scene × Scene)} {m m1 : LODMap} {r : Except MergeError Unit},
      registryLoop docNodes off m sps = (m1, r) → m1.map Prod.fst = m.map Prod.fst := by
  intro sps
  induction sps with
  | nil =>
      intro m m1 r h
      simp only [registryLoop, Prod.mk.injEq] at h
      rw [← h.1]
  | cons pl rest ih =>
      intro m m1 r h
      obtain ⟨p, l⟩ := pl
      simp only [registryLoop] at h
      cases hrp : rootPairsLoop docNodes off m (p.nodes.zip l.nodes) with
      | mk m2 r2 =>
          simp only [hrp] at h
          have hk2 : m2.map Prod.fst = m.map Prod.fst := rootPairsLoop_keys hrp
          cases r2 with
          | error e =>
              replace h : (m2, (Except.error e : Except MergeError Unit)) = (m1, r) := h
              rw [← (Prod.mk.injEq .. |>.mp h).1, hk2]
          | ok u =>
              replace h : registryLoop docNodes off m2 rest = (m1, r) := h
              rw [ih h, hk2]

theorem mergeLoop_ok :
    ∀ {cands : List GLTFDocument} {dcur : GLTFDocument} {mcur mN : LODMap} {dN : GLTFDocument},
      mergeLoop dcur mcur cands = (mN, Except.ok dN) →
      dN.scenes = dcur.scenes ∧
      (∃ tail, dN.nodes = dcur.nodes ++ tail ∧
        ∀ n ∈ tail, ∃ cd ∈ cands, ∃ x ∈ cd.nodes, n.extensions = x.extensions) ∧
      (∀ k, ∃ ext : List String, lodAt mN k = (lodAt mcur k).map (fun ch => ch ++ ext) ∧
        ext.length = cands.length * ((sceneRootIds dcur).count k)) ∧
      mN.map Prod.fst = mcur.map Prod.fst := by
  intro cands
  induction cands with
  | nil =>
      intro dcur mcur mN dN h
      simp only [mergeLoop, Prod.mk.injEq, Except.ok.injEq] at h
      obtain ⟨hm, hd⟩ := h
      subst hm
      subst hd
      refine ⟨rfl, ⟨[], by simp, fun n hn => absurd hn (by simp)⟩, ?_, rfl⟩
      intro k
      refine ⟨[], ?_, by simp⟩
      cases lodAt mcur k <;> simp
  | cons cd rest ih =>
      intro dcur mcur mN dN h
      simp only [mergeLoop] at h
      cases hstep : AddGLTFNodeLOD dcur mcur cd with
      | mk m2 r =>
          simp only [hstep] at h
          cases r with
          | error e => simp at h
          | ok d2 =>
              replace h : mergeLoop d2 m2 rest = (mN, Except.ok dN) := h
              obtain ⟨x, hs, hmc, hrl, hne⟩ := addLOD_ok_parts hstep
              obtain ⟨hscenes, _, _, _, _, _, _, _, _, _, nn, hnodes, hf2⟩ :=
                mergeAllCollections_parts hmc
              obtain ⟨hstoi, hfst, heff⟩ := addLOD_registry_effect hstep
              obtain ⟨ihsc, ⟨tail, ihnodes, ihtail⟩, iheff, ihkeys⟩ := ih h
              have hkeys2 : m2.map Prod.fst = mcur.map Prod.fst := registryLoop_keys hrl
              have hroots2 : sceneRootIds d2 = sceneRootIds dcur := by
                unfold sceneRootIds
                rw [hscenes]
              refine ⟨by rw [ihsc, hscenes], ?_, ?_, by rw [ihkeys, hkeys2]⟩
              · refine ⟨nn ++ tail, by rw [ihnodes, hnodes, List.append_assoc], ?_⟩
                intro n hn
                rcases List.mem_append.mp hn with hn | hn
                · obtain ⟨xnd, hx, hxy⟩ := forall2_mem_right hf2 n hn
                  exact ⟨cd, by simp, xnd, hx, (mergeNode_ok_extensions hxy).1⟩
                · obtain ⟨cd1, hcd1, w⟩ := ihtail n hn
                  exact ⟨cd1, by simp [hcd1], w⟩
              · intro k
                obtain ⟨ext1, ihe, ihlen⟩ := iheff k
                have happlen : (appendedIds dcur.nodes.length (rootPairs dcur cd) k).length
                    = (sceneRootIds dcur).count k := by
                  rw [appendedIds_length _ hstoi, hfst]
                refine ⟨appendedIds dcur.nodes.length (rootPairs dcur cd) k ++ ext1, ?_, ?_⟩
                · rw [ihe, heff k]
                  cases lodAt mcur k <;> simp [List.append_assoc]
                · rw [List.length_append, happlen, ihlen, hroots2]
                  have : (cd :: rest).length = rest.length + 1 := by simp
                  rw [this, Nat.add_mul, Nat.one_mul, Nat.add_comm]

/-
  Lemmas: the finalization pass.
-/

theorem findIdx_ids_congr {i : String} :
    ∀ {ns1 ns2 : List Node}, ns1.map Node.id = ns2.map Node.id →
      ∀ s : Nat, ns1.findIdx? (fun n => n.id == i) s = ns2.findIdx? (fun n => n.id == i) s := by
  intro ns1
  induction ns1 with
  | nil =>
      intro ns2 h s
      cases ns2 with
      | nil => rfl
      | cons b t2 => simp at h
  | cons a t ih =>
      intro ns2 h s
      cases ns2 with
      | nil => simp at h
      | cons b t2 =>
          simp only [List.map_cons, List.cons.injEq] at h
          rw [List.findIdx?_cons, List.findIdx?_cons, h.1, ih h.2]

theorem nodesGetIndex_congr {ns1 ns2 : List Node}
    (h : ns1.map Node.id = ns2.map Node.id) (i : String) :
    nodesGetIndex ns1 i = nodesGetIndex ns2 i :=
  findIdx_ids_congr h 0

theorem serializeIndices_congr {ns1 ns2 : List Node}
    (h : ns1.map Node.id = ns2.map Node.id) (ch : List String) :
    serializeIndices (nodesGetIndex ns1) ch = serializeIndices (nodesGetIndex ns2) ch := by
  unfold serializeIndices
  refine mapME_congr ?_
  intro lodId _
  rw [nodesGetIndex_congr h]

theorem setFirst_replace_ids (n1 : Node) :
    ∀ ns : List Node,
      (setFirst (fun m => m.id == n1.id) (fun _ => n1) ns).map Node.id = ns.map Node.id := by
  intro ns
  induction ns with
  | nil => rfl
  | cons x t ih =>
      by_cases hx : (x.id == n1.id) = true
      · simp only [setFirst, if_pos hx, List.map_cons]
        rw [eq_of_beq hx]
      · simp only [setFirst, if_neg hx, List.map_cons, ih]

theorem nodesReplace_ok_ids {ns : List Node} {n1 : Node} {ns1 : List Node}
    (h : nodesReplace ns n1 = Except.ok ns1) : ns1.map Node.id = ns.map Node.id := by
  unfold nodesReplace at h
  by_cases ha : (ns.any fun m => m.id == n1.id) = true
  · rw [if_pos ha] at h
    simp only [Except.ok.injEq] at h
    subst h
    exact setFirst_replace_ids n1 ns
  · rw [if_neg ha] at h
    cases h

theorem applyLod_ids :
    ∀ {M : List (String × List String)} {doc final : GLTFDocument},
      applyLodExtensions doc M = Except.ok final →
      final.nodes.map Node.id = doc.nodes.map Node.id := by
  intro M
  induction M with
  | nil =>
      intro doc final h
      simp only [applyLodExtensions, Except.ok.injEq] at h
      subst h
      rfl
  | cons entry rest ih =>
      intro doc final h
      obtain ⟨k, ch⟩ := entry
      simp only [applyLodExtensions] at h
      by_cases hch : (ch.length == 0) = true
      · rw [if_pos hch] at h
        exact ih h
      · rw [if_neg hch] at h
        cases hg : nodesGet doc.nodes k with
        | none => simp [hg] at h
        | some node =>
            simp only [hg] at h
            cases hser : SerializeExtensionMSFTLod LODTargetKind.node ch doc with
            | error e => simp [hser] at h
            | ok pay =>
                simp only [hser] at h
                cases pay with
                | none => exact ih h
                | some v =>
                    cases hrep : nodesReplace doc.nodes (emplaceLodExtension v node) with
                    | error e => simp [hrep] at h
                    | ok nodes1 =>
                        simp only [hrep] at h
                        rw [ih h]
                        exact nodesReplace_ok_ids hrep

theorem forall2_imp_mem {α β : Type} {R S : α → β → Prop} :
    ∀ {l1 : List α} {l2 : List β}, List.Forall₂ R l1 l2 →
      (∀ a ∈ l1, ∀ b, R a b → S a b) → List.Forall₂ S l1 l2 := by
  intro l1 l2 h
  induction h with
  | nil => intro _; exact List.Forall₂.nil
  | cons hab hrest ih =>
      intro himp
      exact List.Forall₂.cons (himp _ (by simp) _ hab)
        (ih (fun a ha b hb => himp a (by simp [ha]) b hb))

theorem forall2_map_left {α β γ : Type} {f : α → γ} {R : γ → β → Prop} :
    ∀ {l1 : List α} {l2 : List β}, List.Forall₂ R (l1.map f) l2 →
      List.Forall₂ (fun a b => R (f a) b) l1 l2 := by
  intro l1
  induction l1 with
  | nil =>
      intro l2 h
      cases h
      exact List.Forall₂.nil
  | cons a t ih =>
      intro l2 h
      rw [List.map_cons] at h
      cases h with
      | cons hab hrest => exact List.Forall₂.cons hab (ih hrest)

theorem serialize_node_of_indices {ch : List String} {doc : GLTFDocument} {idxs : List Nat}
    (hne : ch ≠ []) (hsi : serializeIndices (nodesGetIndex doc.nodes) ch = Except.ok idxs) :
    SerializeExtensionMSFTLod LODTargetKind.node ch doc
      = Except.ok (some (mkIdsPayload idxs)) := by
  unfold SerializeExtensionMSFTLod
  rw [if_neg (by simpa [List.isEmpty_iff] using hne)]
  simp only [serializeKind]
  rw [hsi]
  rfl

theorem serialize_node_of_indices_err {ch : List String} {doc : GLTFDocument} {e : MergeError}
    (hne : ch ≠ []) (hsi : serializeIndices (nodesGetIndex doc.nodes) ch = Except.error e) :
    SerializeExtensionMSFTLod LODTargetKind.node ch doc = Except.error e := by
  unfold SerializeExtensionMSFTLod
  rw [if_neg (by simpa [List.isEmpty_iff] using hne)]
  simp only [serializeKind]
  rw [hsi]
  rfl

theorem emplaceLod_id (v : Json) (n : Node) : (emplaceLodExtension v n).id = n.id := rfl

theorem applyLod_chars :
    ∀ {M : List (String × List String)} {doc final : GLTFDocument},
      applyLodExtensions doc M = Except.ok final →
      (M.map Prod.fst).Nodup →
      (doc.nodes.map Node.id).Nodup →
      List.Forall₂ (fun a b =>
        (∃ ch, lodAt M a.id = some ch ∧ ch ≠ [] ∧
          ∃ idxs : List Nat, serializeIndices (nodesGetIndex doc.nodes) ch = Except.ok idxs ∧
            b = emplaceLodExtension (mkIdsPayload idxs) a) ∨
        ((∀ ch, lodAt M a.id = some ch → ch = []) ∧ b = a)) doc.nodes final.nodes := by
  intro M
  induction M with
  | nil =>
      intro doc final h _ _
      simp only [applyLodExtensions, Except.ok.injEq] at h
      subst h
      refine List.forall₂_same.mpr ?_
      intro a _
      exact Or.inr ⟨fun ch hch => by simp [lodAt, assocFind] at hch, rfl⟩
  | cons entry rest ih =>
      intro doc final h hkeys hnd
      obtain ⟨k, ch⟩ := entry
      rw [List.map_cons, List.nodup_cons] at hkeys
      have hknotin : lodAt rest k = none := by
        rw [show lodAt rest k = assocFind rest k from rfl, assocFind_eq_none_iff]
        exact hkeys.1
      simp only [applyLodExtensions] at h
      by_cases hch : (ch.length == 0) = true
      · rw [if_pos hch] at h
        have hch0 : ch = [] := List.length_eq_zero.mp (by simpa using hch)
        refine forall2_imp_mem (ih h hkeys.2 hnd) ?_
        intro a _ b hr
        rcases hr with ⟨ch1, hl, hne1, w⟩ | ⟨hempty, hb⟩
        · refine Or.inl ⟨ch1, ?_, hne1, w⟩
          rw [show lodAt ((k, ch) :: rest) a.id = assocFind ((k, ch) :: rest) a.id from rfl,
            assocFind_cons]
          by_cases hak : k = a.id
          · exfalso
            rw [← hak, hknotin] at hl
            cases hl
          · rw [if_neg hak]
            exact hl
        · refine Or.inr ⟨?_, hb⟩
          intro ch1 hl
          rw [show lodAt ((k, ch) :: rest) a.id = assocFind ((k, ch) :: rest) a.id from rfl,
            assocFind_cons] at hl
          by_cases hak : k = a.id
          · rw [if_pos hak] at hl
            injection hl with hl1
            rw [← hl1, hch0]
          · rw [if_neg hak] at hl
            exact hempty ch1 hl
      · rw [if_neg hch] at h
        have hchne : ch ≠ [] := by
          intro hcon
          subst hcon
          simp at hch
        cases hg : nodesGet doc.nodes k with
        | none => simp [hg] at h
        | some node =>
            simp only [hg] at h
            have hnodeid : node.id = k := nodesGet_eq_id hg
            cases hsi : serializeIndices (nodesGetIndex doc.nodes) ch with
            | error e =>
                rw [serialize_node_of_indices_err hchne hsi] at h
                simp at h
            | ok idxs =>
                rw [serialize_node_of_indices hchne hsi] at h
                have hrep := nodesReplace_eq_map hnd (nodesGet_mem hg)
                  (show node.id = (emplaceLodExtension (mkIdsPayload idxs) node).id from rfl)
                simp only [hrep] at h
                have hids1 : (doc.nodes.map (fun x =>
                    if x.id = (emplaceLodExtension (mkIdsPayload idxs) node).id
                    then emplaceLodExtension (mkIdsPayload idxs) node else x)).map Node.id
                    = doc.nodes.map Node.id := by
                  rw [List.map_map]
                  refine List.map_congr_left ?_
                  intro x _
                  by_cases hx : x.id = node.id
                  · simp [Function.comp, emplaceLod_id, hx]
                  · simp [Function.comp, emplaceLod_id, hx]
                have hrel := ih h hkeys.2 (show ((⟨doc.buffers, doc.samplers, doc.bufferViews,
                  doc.accessors, doc.images, doc.textures, doc.materials, doc.meshes,
                  doc.nodes.map (fun x => if x.id = (emplaceLodExtension (mkIdsPayload idxs) node).id
                    then emplaceLodExtension (mkIdsPayload idxs) node else x),
                  doc.scenes, doc.extensionsUsed⟩ : GLTFDocument).nodes.map Node.id).Nodup from by
                  rw [show (⟨doc.buffers, doc.samplers, doc.bufferViews, doc.accessors,
                    doc.images, doc.textures, doc.materials, doc.meshes,
                    doc.nodes.map (fun x => if x.id = (emplaceLodExtension (mkIdsPayload idxs) node).id
                      then emplaceLodExtension (mkIdsPayload idxs) node else x),
                    doc.scenes, doc.extensionsUsed⟩ : GLTFDocument).nodes
                    = doc.nodes.map (fun x => if x.id = (emplaceLodExtension (mkIdsPayload idxs) node).id
                      then emplaceLodExtension (mkIdsPayload idxs) node else x) from rfl, hids1]
                  exact hnd)
                have hrel2 := forall2_map_left hrel
                refine forall2_imp_mem hrel2 ?_
                intro a ha b hr
                by_cases hak : a.id = k
                · have hanode : a = node := by
                    have h1 := nodesGet_self_of_nodup hnd ha
                    rw [hak, hg] at h1
                    injection h1 with h2
                    exact h2.symm
                  have hupd : (if a.id = (emplaceLodExtension (mkIdsPayload idxs) node).id
                      then emplaceLodExtension (mkIdsPayload idxs) node else a)
                      = emplaceLodExtension (mkIdsPayload idxs) node := by
                    rw [if_pos (by rw [emplaceLod_id, hanode])]
                  rw [hupd] at hr
                  rcases hr with ⟨ch1, hl, _, _⟩ | ⟨_, hb⟩
                  · exfalso
                    rw [emplaceLod_id, hnodeid, hknotin] at hl
                    cases hl
                  · refine Or.inl ⟨ch, ?_, hchne, idxs, ?_, ?_⟩
                    · rw [show lodAt ((k, ch) :: rest) a.id
                          = assocFind ((k, ch) :: rest) a.id from rfl, assocFind_cons,
                        if_pos hak.symm]
                    · exact hsi
                    · rw [hb, hanode]
                · have hupd : (if a.id = (emplaceLodExtension (mkIdsPayload idxs) node).id
                      then emplaceLodExtension (mkIdsPayload idxs) node else a) = a := by
                    rw [if_neg (by rw [emplaceLod_id, hnodeid]; exact hak)]
                  rw [hupd] at hr
                  rcases hr with ⟨ch1, hl, hne1, idxs1, hsi1, hb⟩ | ⟨hempty, hb⟩
                  · refine Or.inl ⟨ch1, ?_, hne1, idxs1, ?_, hb⟩
                    · rw [show lodAt ((k, ch) :: rest) a.id
                          = assocFind ((k, ch) :: rest) a.id from rfl, assocFind_cons,
                        if_neg (fun hcon : k = a.id => hak hcon.symm)]
                      exact hl
                    · have hx : serializeIndices (nodesGetIndex (doc.nodes.map (fun x => if x.id = (emplaceLodExtension (mkIdsPayload idxs) node).id then emplaceLodExtension (mkIdsPayload idxs) node else x))) ch1 = Except.ok idxs1 := hsi1
                      rw [serializeIndices_congr hids1] at hx
                      exact hx
                  · refine Or.inr ⟨?_, hb⟩
                    intro ch1 hl
                    rw [show lodAt ((k, ch) :: rest) a.id
                        = assocFind ((k, ch) :: rest) a.id from rfl, assocFind_cons,
                      if_neg (fun hcon : k = a.id => hak hcon.symm)] at hl
                    exact hempty ch1 hl

/-
  Lemmas: counting LOD levels and reparsing the finalized document.
-/

theorem forall2_mem_left {α β : Type} {R : α → β → Prop} :
    ∀ {l1 : List α} {l2 : List β}, List.Forall₂ R l1 l2 → ∀ a ∈ l1, ∃ b ∈ l2, R a b := by
  intro l1 l2 h
  induction h with
  | nil => intro a ha; cases ha
  | cons hR hrest ih =>
      intro a ha
      rcases List.mem_cons.mp ha with ha | ha
      · subst ha; exact ⟨_, by simp, hR⟩
      · obtain ⟨b, hb, hab⟩ := ih a ha
        exact ⟨b, by simp [hb], hab⟩

theorem lodLevelsLoop_ok {lods : LODMap} :
    ∀ {ns : List Node} {acc r : Nat}, lodLevelsLoop lods ns acc = Except.ok r →
      acc ≤ r ∧ ∀ n ∈ ns, ∀ ch, lodAt lods n.id = some ch → ch.length ≤ r := by
  intro ns
  induction ns with
  | nil =>
      intro acc r h
      simp only [lodLevelsLoop, Except.ok.injEq] at h
      subst h
      exact ⟨le_refl _, fun n hn => absurd hn (by simp)⟩
  | cons nd rest ih =>
      intro acc r h
      simp only [lodLevelsLoop] at h
      cases hl : lodAt lods nd.id with
      | none => simp [hl] at h
      | some chain =>
          simp only [hl] at h
          obtain ⟨hacc, hall⟩ := ih h
          refine ⟨le_trans (Nat.le_max_left acc chain.length) hacc, ?_⟩
          intro n hn ch hch
          rcases List.mem_cons.mp hn with hn | hn
          · subst hn
            rw [hl] at hch
            injection hch with hch1
            rw [← hch1]
            exact le_trans (Nat.le_max_right acc chain.length) hacc
          · exact hall n hn ch hch

theorem lodLevelsLoop_le {lods : LODMap} {T : Nat} :
    ∀ {ns : List Node} {acc r : Nat},
      (∀ n ∈ ns, ∀ ch, lodAt lods n.id = some ch → ch.length ≤ T) → acc ≤ T →
      lodLevelsLoop lods ns acc = Except.ok r → r ≤ T := by
  intro ns
  induction ns with
  | nil =>
      intro acc r _ hacc h
      simp only [lodLevelsLoop, Except.ok.injEq] at h
      subst h
      exact hacc
  | cons nd rest ih =>
      intro acc r hall hacc h
      simp only [lodLevelsLoop] at h
      cases hl : lodAt lods nd.id with
      | none => simp [hl] at h
      | some chain =>
          simp only [hl] at h
          refine ih (fun n hn ch hch => hall n (by simp [hn]) ch hch) ?_ h
          exact Nat.max_le.mpr ⟨hacc, hall nd (by simp) chain hl⟩

theorem parse_emplaced (a : Node) (idxs : List Nat)
    (h : extFind a.extensions EXTENSION_MSFT_LOD = none) :
    ParseExtensionMSFTLod (emplaceLodExtension (mkIdsPayload idxs) a)
      = Except.ok (idxs.map (fun i => toString (Int.ofNat i))) := by
  have hx : extFind (emplaceLodExtension (mkIdsPayload idxs) a).extensions EXTENSION_MSFT_LOD
      = some (some (mkIdsPayload idxs)) := by
    show extFind (extEmplace a.extensions EXTENSION_MSFT_LOD (some (mkIdsPayload idxs)))
      EXTENSION_MSFT_LOD = _
    rw [extFind_extEmplace_absent _ h]
    rw [if_pos rfl]
  unfold ParseExtensionMSFTLod
  rw [hx]
  show mapME (fun v =>
      match v with
      | Json.jnum n => Except.ok (toString n)
      | _ => Except.error MergeError.jsonTypeError)
    (idxs.map (fun i => Json.jnum (Int.ofNat i))) = _
  have hg : ∀ x ∈ idxs.map (fun i => Json.jnum (Int.ofNat i)),
      (fun v =>
        match v with
        | Json.jnum n => Except.ok (toString n)
        | _ => Except.error MergeError.jsonTypeError) x
      = Except.ok ((fun v =>
        match v with
        | Json.jnum n => toString n
        | _ => "") x) := by
    intro x hx1
    rw [List.mem_map] at hx1
    obtain ⟨i, _, hi⟩ := hx1
    subst hi
    rfl
  rw [mapME_eq_map hg, List.map_map]
  rfl

theorem sceneMatchLoop_first_root {ns : List Node} {m : LODMap} :
    ∀ {pairs : List (Scene × Scene)} {acc : Nat} {flag : Bool} {x : Nat},
      sceneMatchLoop ns m pairs acc flag = Except.ok (true, x) →
      ∀ pr ∈ pairs, ∃ r n, pr.1.nodes.head? = some r ∧ nodesGet ns r = some n ∧
        (lodAt m n.id).isSome := by
  intro pairs
  induction pairs with
  | nil => intro acc flag x _ pr hpr; cases hpr
  | cons pl rest ih =>
      intro acc flag x h pr hpr
      obtain ⟨p, l⟩ := pl
      simp only [sceneMatchLoop] at h
      by_cases hok : scenePairOk p l
      · rw [if_pos hok] at h
        cases hh : p.nodes.head? with
        | none => simp [hh] at h
        | some rootId =>
            simp only [hh] at h
            cases hg : nodesGet ns rootId with
            | none => simp [hg] at h
            | some primaryRootNode =>
                simp only [hg] at h
                cases hl : lodAt m primaryRootNode.id with
                | none => simp [hl] at h
                | some chain =>
                    simp only [hl] at h
                    rcases List.mem_cons.mp hpr with hpr | hpr
                    · subst hpr
                      exact ⟨rootId, primaryRootNode, hh, hg, by simp [hl]⟩
                    · exact ih h pr hpr
      · rw [if_neg hok] at h
        exact absurd h (by simp)

theorem mergeDocs_parts {d0 : GLTFDocument} {rest : List GLTFDocument}
    {merged : GLTFDocument} (h : MergeDocumentsAsLODs (d0 :: rest) = Except.ok merged) :
    ∃ m0 mN dN, ParseDocumentNodeLODs d0 = Except.ok m0 ∧
      mergeLoop d0 m0 rest = (mN, Except.ok dN) ∧
      applyLodExtensions dN mN = Except.ok merged := by
  unfold MergeDocumentsAsLODs at h
  cases hp : ParseDocumentNodeLODs d0 with
  | error e => simp [hp] at h
  | ok m0 =>
      simp only [hp] at h
      cases hml : mergeLoop d0 m0 rest with
      | mk mN r =>
          simp only [hml] at h
          cases r with
          | error e => simp at h
          | ok dN =>
              replace h : applyLodExtensions dN mN = Except.ok merged := h
              exact ⟨m0, mN, dN, rfl, hml, h⟩

theorem parseNodesLoop_total :
    ∀ {ns : List Node},
      (∀ n ∈ ns, ∃ ch, ParseExtensionMSFTLod n = Except.ok ch) →
      ∀ m0 : LODMap, ∃ m, parseNodesLoop ns m0 = Except.ok m := by
  intro ns
  induction ns with
  | nil => intro _ m0; exact ⟨m0, rfl⟩
  | cons nd rest ih =>
      intro hall m0
      obtain ⟨ch, hch⟩ := hall nd (by simp)
      obtain ⟨m, hm⟩ := ih (fun n hn => hall n (by simp [hn])) (lodEmplace m0 nd.id ch)
      refine ⟨m, ?_⟩
      simp only [parseNodesLoop, hch]
      exact hm

theorem lodLevelsLoop_total {lods : LODMap} :
    ∀ {ns : List Node},
      (∀ n ∈ ns, (lodAt lods n.id).isSome) →
      ∀ acc : Nat, ∃ r, lodLevelsLoop lods ns acc = Except.ok r := by
  intro ns
  induction ns with
  | nil => intro _ acc; exact ⟨acc, rfl⟩
  | cons nd rest ih =>
      intro hall acc
      obtain ⟨ch, hch⟩ := Option.isSome_iff_exists.mp (hall nd (by simp))
      obtain ⟨r, hr⟩ := ih (fun n hn => hall n (by simp [hn])) (Nat.max acc ch.length)
      refine ⟨r, ?_⟩
      simp only [lodLevelsLoop, hch]
      exact hr

/-- The registry chain of every identifier after the merge fold, assuming
the seed registry has only empty chains over the first document's node
identifiers: empty unless the identifier names a scene root, and of length
(number of merged candidates) x (occurrences among root positions)
otherwise. -/
theorem mergeAll_levels_core {d0 : GLTFDocument} {rest : List GLTFDocument}
    {merged : GLTFDocument}
    (hok : MergeDocumentsAsLODs (d0 :: rest) = Except.ok merged)
    (hnolod : ∀ doc ∈ d0 :: rest, ∀ n ∈ doc.nodes,
      extFind n.extensions EXTENSION_MSFT_LOD = none)
    (hroots : (sceneRootIds d0).Nodup)
    (hids : (merged.nodes.map Node.id).Nodup) :
    ∃ reg, ParseDocumentNodeLODs merged = Except.ok reg ∧
      NumberOfNodeLODLevels merged reg = Except.ok rest.length := by
  obtain ⟨m0, mN, dN, hp, hml, hfin⟩ := mergeDocs_parts hok
  have hp1 : parseNodesLoop d0.nodes [] = Except.ok m0 := hp
  obtain ⟨p1, p2, p3, p4⟩ := parseNodesLoop_ok hp1
  have hm0keys : (m0.map Prod.fst).Nodup := p4 (by simp)
  have hm0 : ∀ k n, nodesGet d0.nodes k = some n → lodAt m0 k = some [] := by
    intro k n hg
    obtain ⟨ch, hch, hl⟩ := p3 k (by rfl) n hg
    rw [parse_no_ext (hnolod d0 (by simp) n (nodesGet_mem hg))] at hch
    injection hch with hch1
    rw [hl, ← hch1]
  have hm0none : ∀ k, nodesGet d0.nodes k = none → lodAt m0 k = none := by
    intro k hg
    exact p2 k (by rfl) hg
  obtain ⟨hsc, ⟨tail, hnodes, htail⟩, heff, hkeys⟩ := mergeLoop_ok hml
  have hmNkeys : (mN.map Prod.fst).Nodup := by rw [hkeys]; exact hm0keys
  have hidsN : (dN.nodes.map Node.id).Nodup := by
    rw [← applyLod_ids hfin]
    exact hids
  have hF := applyLod_chars hfin hmNkeys hidsN
  have hpre : ∀ a ∈ dN.nodes, extFind a.extensions EXTENSION_MSFT_LOD = none := by
    intro a ha
    rw [hnodes] at ha
    rcases List.mem_append.mp ha with ha | ha
    · exact hnolod d0 (by simp) a ha
    · obtain ⟨cd, hcd, x, hx, hext⟩ := htail a ha
      rw [show extFind a.extensions EXTENSION_MSFT_LOD
          = extFind x.extensions EXTENSION_MSFT_LOD from by rw [hext]]
      exact hnolod cd (by simp [hcd]) x hx
  -- every chain stored in mN is empty padded with the appended entries
  have hchainN : ∀ k ch, lodAt mN k = some ch →
      ch.length = rest.length * ((sceneRootIds d0).count k) := by
    intro k ch hch
    obtain ⟨ext, hext, hlen⟩ := heff k
    rw [hch] at hext
    cases hg : nodesGet d0.nodes k with
    | none =>
        rw [hm0none k hg] at hext
        cases hext
    | some n =>
        rw [hm0 k n hg] at hext
        injection hext with hext1
        rw [hext1]
        simpa using hlen
  -- parse of every node of the final document, via the finalization relation
  have hparse : ∀ b ∈ merged.nodes, ∃ chb, ParseExtensionMSFTLod b = Except.ok chb ∧
      chb.length ≤ rest.length := by
    intro b hb
    obtain ⟨a, hamem, hrel⟩ := forall2_mem_right hF b hb
    rcases hrel with ⟨ch, hl, hne, idxs, hsi, hbe⟩ | ⟨_, hbe⟩
    · have hlen1 : idxs.length = ch.length := mapME_ok_length hsi
      have hlen2 := hchainN _ _ hl
      have hcle : ch.length ≤ rest.length := by
        rw [hlen2]
        calc rest.length * ((sceneRootIds d0).count a.id)
            ≤ rest.length * 1 := by
              exact Nat.mul_le_mul_left _ (List.nodup_iff_count_le_one.mp hroots a.id)
          _ = rest.length := Nat.mul_one _
      refine ⟨idxs.map (fun i => toString (Int.ofNat i)), ?_, ?_⟩
      · rw [hbe]
        exact parse_emplaced a idxs (hpre a hamem)
      · rw [List.length_map, hlen1]
        exact hcle
    · refine ⟨[], ?_, by simp⟩
      rw [hbe]
      exact parse_no_ext (hpre a hamem)
  -- the reparse of the final document succeeds
  obtain ⟨reg, hreg⟩ := parseNodesLoop_total
    (fun n hn => (hparse n hn).imp (fun ch hch => hch.1)) []
  have hreg1 : ParseDocumentNodeLODs merged = Except.ok reg := hreg
  obtain ⟨q1, q2, q3, _⟩ := parseNodesLoop_ok hreg
  have hregAt : ∀ n ∈ merged.nodes, ∃ chn, lodAt reg n.id = some chn ∧
      ParseExtensionMSFTLod n = Except.ok chn := by
    intro n hn
    obtain ⟨chn, hchn, hl⟩ := q3 n.id (by rfl) n (nodesGet_self_of_nodup hids hn)
    exact ⟨chn, hl, hchn⟩
  -- the count loop runs to completion
  obtain ⟨r, hr⟩ := @lodLevelsLoop_total reg merged.nodes (fun n hn => by
    obtain ⟨chn, hl, _⟩ := hregAt n hn
    simp [hl]) 0
  have hcount : NumberOfNodeLODLevels merged reg = Except.ok r := hr
  refine ⟨reg, hreg1, ?_⟩
  rw [hcount]
  -- upper bound
  have hub : r ≤ rest.length := by
    refine lodLevelsLoop_le ?_ (Nat.zero_le _) hr
    intro n hn ch hch
    obtain ⟨chn, hl, hpn⟩ := hregAt n hn
    rw [hl] at hch
    injection hch with hch1
    obtain ⟨chb, hchb, hble⟩ := hparse n hn
    rw [hpn] at hchb
    injection hchb with hchb1
    rw [← hch1, hchb1]
    exact hble
  -- lower bound, using the first scene root when at least one candidate was merged
  have hlb : rest.length ≤ r := by
    by_cases hrnil : rest = []
    · rw [hrnil]; simp
    · obtain ⟨c1, rest1, hrest⟩ := List.exists_cons_of_ne_nil hrnil
      rw [hrest] at hml
      simp only [mergeLoop] at hml
      cases hstep : AddGLTFNodeLOD d0 m0 c1 with
      | mk m1 r1 =>
          simp only [hstep] at hml
          cases r1 with
          | error e => simp at hml
          | ok d1 =>
              obtain ⟨x, hscan, _, _, hne0⟩ := addLOD_ok_parts hstep
              have hlen0 : d0.scenes.length = c1.scenes.length :=
                (scan_true_topologyOkay hscan hne0).2
              unfold scanScenes at hscan
              rw [if_pos (by simpa using hlen0)] at hscan
              have hzipne : d0.scenes.zip c1.scenes ≠ [] := by
                intro hcon
                have hlz : (d0.scenes.zip c1.scenes).length
                    = min d0.scenes.length c1.scenes.length :=
                  List.length_zip d0.scenes c1.scenes
                rw [hcon, ← hlen0] at hlz
                simp [Nat.min_self] at hlz
                exact hne0 (List.length_eq_zero.mp hlz.symm)
              obtain ⟨pr0, hpr0⟩ := List.exists_mem_of_ne_nil _ hzipne
              obtain ⟨r0, n0, hhead, hget, _⟩ :=
                sceneMatchLoop_first_root hscan pr0 hpr0
              have hr0mem : r0 ∈ sceneRootIds d0 := by
                unfold sceneRootIds
                rw [List.mem_flatten]
                refine ⟨pr0.1.nodes, ?_, ?_⟩
                · rw [List.mem_map]
                  exact ⟨pr0.1, (List.of_mem_zip hpr0).1, rfl⟩
                · exact List.mem_of_mem_head? hhead
              have hn0id : n0.id = r0 := nodesGet_eq_id hget
              have hn0mem : n0 ∈ dN.nodes := by
                rw [hnodes]
                exact List.mem_append_left _ (nodesGet_mem hget)
              have hchainr0 : ∃ ext : List String, lodAt mN r0 = some ext ∧
                  ext.length = rest.length := by
                obtain ⟨ext, hext, hlen⟩ := heff r0
                rw [hm0 r0 n0 hget] at hext
                refine ⟨ext, by simpa using hext, ?_⟩
                rw [hlen, List.count_eq_one_of_mem hroots hr0mem, Nat.mul_one]
              obtain ⟨ext, hextAt, hextLen⟩ := hchainr0
              have hextne : ext ≠ [] := by
                intro hcon
                rw [hcon] at hextLen
                rw [hrest] at hextLen
                simp at hextLen
              obtain ⟨b, hbmem, hrel⟩ := forall2_mem_left hF n0 hn0mem
              rcases hrel with ⟨ch, hl, _, idxs, hsi, hbe⟩ | ⟨hempty, _⟩
              · have hchlen : ch.length = rest.length := by
                  rw [hn0id] at hl
                  rw [hextAt] at hl
                  injection hl with hl1
                  rw [← hl1]
                  exact hextLen
                have hlen1 : idxs.length = ch.length := mapME_ok_length hsi
                obtain ⟨chn, hlreg, hpn⟩ := hregAt b hbmem
                have hpb : ParseExtensionMSFTLod b
                    = Except.ok (idxs.map (fun i => toString (Int.ofNat i))) := by
                  rw [hbe]
                  exact parse_emplaced n0 idxs (hpre n0 hn0mem)
                rw [hpb] at hpn
                injection hpn with hpn1
                have hchnlen : chn.length = rest.length := by
                  rw [← hpn1, List.length_map, hlen1, hchlen]
                have hfinal := (lodLevelsLoop_ok hr).2 b hbmem chn hlreg
                rw [← hchnlen]
                exact hfinal
              · exfalso
                rw [hn0id] at hempty
                exact hextne (hempty ext hextAt)
  exact congrArg Except.ok (Nat.le_antisymm hub hlb)

/-
  Lemmas: the screen-coverage pass.
-/

theorem coverageRoots_append_ok {cov : List Rat} :
    ∀ {a : List String} {doc d1 : GLTFDocument} (b : List String),
      coverageRootsLoop cov doc a = Except.ok d1 →
      coverageRootsLoop cov doc (a ++ b) = coverageRootsLoop cov d1 b := by
  intro a
  induction a with
  | nil =>
      intro doc d1 b h
      simp only [coverageRootsLoop, Except.ok.injEq] at h
      subst h
      rfl
  | cons r0 rest ih =>
      intro doc d1 b h
      simp only [coverageRootsLoop] at h ⊢
      cases hg : nodesGet doc.nodes r0 with
      | none => simp [hg] at h
      | some n =>
          simp only [hg] at h ⊢
          cases hat : attachCoverage cov n with
          | error e => simp [hat] at h
          | ok n1 =>
              simp only [hat] at h ⊢
              cases hrep : nodesReplace doc.nodes n1 with
              | error e => simp [hrep] at h
              | ok nodes1 =>
                  simp only [hrep] at h ⊢
                  exact ih b h

theorem coverageRoots_scenes {cov : List Rat} :
    ∀ {a : List String} {doc final : GLTFDocument},
      coverageRootsLoop cov doc a = Except.ok final → final.scenes = doc.scenes := by
  intro a
  induction a with
  | nil =>
      intro doc final h
      simp only [coverageRootsLoop, Except.ok.injEq] at h
      subst h
      rfl
  | cons r0 rest ih =>
      intro doc final h
      simp only [coverageRootsLoop] at h
      cases hg : nodesGet doc.nodes r0 with
      | none => simp [hg] at h
      | some n =>
          simp only [hg] at h
          cases hat : attachCoverage cov n with
          | error e => simp [hat] at h
          | ok n1 =>
              simp only [hat] at h
              cases hrep : nodesReplace doc.nodes n1 with
              | error e => simp [hrep] at h
              | ok nodes1 =>
                  simp only [hrep] at h
                  have h2 := ih h
                  exact h2

theorem coverageScenes_to_roots {cov : List Rat} :
    ∀ {scenes : List Scene} {doc final : GLTFDocument},
      coverageScenesLoop cov doc scenes = Except.ok final →
      coverageRootsLoop cov doc ((scenes.map Scene.nodes).flatten) = Except.ok final := by
  intro scenes
  induction scenes with
  | nil =>
      intro doc final h
      simpa only [coverageScenesLoop] using h
  | cons s rest ih =>
      intro doc final h
      simp only [coverageScenesLoop] at h
      cases h1 : coverageRootsLoop cov doc s.nodes with
      | error e => simp [h1] at h
      | ok d1 =>
          simp only [h1] at h
          rw [List.map_cons, List.flatten_cons, coverageRoots_append_ok _ h1]
          exact ih h

theorem attachCoverage_ok {cov : List Rat} {n n1 : Node}
    (h : attachCoverage cov n = Except.ok n1) :
    ∃ fs, extrasFieldsAre n fs ∧
      n1 = { n with extras := some (Json.jobj (fs ++ [screenCoverageEntry cov])) } := by
  unfold attachCoverage at h
  cases hx : n.extras with
  | none =>
      rw [hx] at h
      injection h with h1
      exact ⟨[], Or.inl ⟨hx, rfl⟩, by rw [← h1]; rfl⟩
  | some j =>
      rw [hx] at h
      cases j with
      | jobj fields =>
          injection h with h1
          exact ⟨fields, Or.inr hx, by rw [← h1]; rfl⟩
      | jnum a => cases h
      | jreal a => cases h
      | jstr a => cases h
      | jbool a => cases h
      | jnull => cases h
      | jarr a => cases h

theorem attachCoverage_id {cov : List Rat} {n n1 : Node}
    (h : attachCoverage cov n = Except.ok n1) : n1.id = n.id := by
  obtain ⟨fs, _, hn1⟩ := attachCoverage_ok h
  rw [hn1]

theorem coverageRoots_chars {cov : List Rat} :
    ∀ {roots : List String} {doc final : GLTFDocument},
      coverageRootsLoop cov doc roots = Except.ok final →
      (doc.nodes.map Node.id).Nodup →
      List.Forall₂ (fun a b =>
        (a.id ∉ roots ∧ b = a) ∨
        (a.id ∈ roots ∧ coveredFrom cov a b)) doc.nodes final.nodes := by
  intro roots
  induction roots with
  | nil =>
      intro doc final h _
      simp only [coverageRootsLoop, Except.ok.injEq] at h
      subst h
      refine List.forall₂_same.mpr ?_
      intro a _
      exact Or.inl ⟨by simp, rfl⟩
  | cons r0 rest ih =>
      intro doc final h hnd
      simp only [coverageRootsLoop] at h
      cases hg : nodesGet doc.nodes r0 with
      | none => simp [hg] at h
      | some n =>
          simp only [hg] at h
          cases hat : attachCoverage cov n with
          | error e => simp [hat] at h
          | ok n1 =>
              simp only [hat] at h
              obtain ⟨fs0, hfs0, hn1⟩ := attachCoverage_ok hat
              have hnid : n.id = r0 := nodesGet_eq_id hg
              have hn1id : n1.id = n.id := attachCoverage_id hat
              have hrep := nodesReplace_eq_map hnd (nodesGet_mem hg) hn1id.symm
              simp only [hrep] at h
              have hids1 : (doc.nodes.map (fun x => if x.id = n1.id then n1 else x)).map Node.id
                  = doc.nodes.map Node.id := by
                rw [List.map_map]
                refine List.map_congr_left ?_
                intro x _
                by_cases hx : x.id = n1.id
                · simp [Function.comp, hx, hn1id]
                · simp [Function.comp, hx]
              have hnd1 : ((doc.nodes.map (fun x => if x.id = n1.id then n1 else x)).map
                  Node.id).Nodup := by
                rw [hids1]
                exact hnd
              have hrel := ih h hnd1
              have hrel2 := forall2_map_left hrel
              refine forall2_imp_mem hrel2 ?_
              intro a ha b hr
              by_cases hak : a.id = r0
              · have hanode : a = n := by
                  have h1 := nodesGet_self_of_nodup hnd ha
                  rw [hak, hg] at h1
                  injection h1 with h2
                  exact h2.symm
                have hupd : (if a.id = n1.id then n1 else a) = n1 := by
                  rw [if_pos (by rw [hn1id, hanode])]
                rw [hupd] at hr
                rcases hr with ⟨_, hb⟩ | ⟨_, hcov⟩
                · refine Or.inr ⟨by simp [hak], ?_⟩
                  refine ⟨fs0, [screenCoverageEntry cov], by rw [hanode]; exact hfs0, by simp,
                    by simp, ?_⟩
                  rw [hb, hn1, hanode]
                · obtain ⟨fs1, ext1, hfs1, hext1ne, hext1all, hb⟩ := hcov
                  have hfs1eq : fs1 = fs0 ++ [screenCoverageEntry cov] := by
                    rcases hfs1 with ⟨hnone, _⟩ | hsome
                    · rw [hn1] at hnone
                      cases hnone
                    · rw [hn1] at hsome
                      injection hsome with h2
                      injection h2 with h3
                      exact h3.symm
                  refine Or.inr ⟨by simp [hak], ?_⟩
                  refine ⟨fs0, screenCoverageEntry cov :: ext1, by rw [hanode]; exact hfs0,
                    by simp, ?_, ?_⟩
                  · intro y hy
                    rcases List.mem_cons.mp hy with hy | hy
                    · exact hy
                    · exact hext1all y hy
                  · rw [hb, hfs1eq, hn1, hanode]
                    show ({ n with extras := some (Json.jobj ((fs0 ++ [screenCoverageEntry cov]) ++ ext1)) } : Node) = _
                    rw [List.append_assoc]
                    rfl
              · have hupd : (if a.id = n1.id then n1 else a) = a := by
                  rw [if_neg (by rw [hn1id, hnid]; exact hak)]
                rw [hupd] at hr
                rcases hr with ⟨hnm, hb⟩ | ⟨hm, hcov⟩
                · refine Or.inl ⟨?_, hb⟩
                  intro hcon
                  rcases List.mem_cons.mp hcon with hcon | hcon
                  · exact hak hcon
                  · exact hnm hcon
                · exact Or.inr ⟨by simp [hm], hcov⟩

/-
  The verified properties, one theorem per claim of the specification.
-/

/-- C1 (corrected): after one successful merge step, the nine appendable
entity collections (Buffer, Sampler, BufferView, Accessor, Image, Texture,
Material, Mesh, Node) of the merged document each have the primary's size
plus the candidate's size — but the Scene collection does not add: the
merged document's scenes are exactly the primary's, whatever the candidate
holds. -/
theorem spec_C1 {p c : GLTFDocument} {m m1 : LODMap} {d : GLTFDocument}
    (h : AddGLTFNodeLOD p m c = (m1, Except.ok d)) :
    d.buffers.length = p.buffers.length + c.buffers.length ∧
    d.samplers.length = p.samplers.length + c.samplers.length ∧
    d.bufferViews.length = p.bufferViews.length + c.bufferViews.length ∧
    d.accessors.length = p.accessors.length + c.accessors.length ∧
    d.images.length = p.images.length + c.images.length ∧
    d.textures.length = p.textures.length + c.textures.length ∧
    d.materials.length = p.materials.length + c.materials.length ∧
    d.meshes.length = p.meshes.length + c.meshes.length ∧
    d.nodes.length = p.nodes.length + c.nodes.length ∧
    d.scenes = p.scenes := by
  obtain ⟨x, hs, hmc, hrl, hne⟩ := addLOD_ok_parts h
  obtain ⟨hsc, h1, h2, h3, h4, h5, h6, h7, h8, h9, hrest⟩ := mergeAllCollections_parts hmc
  exact ⟨h1, h2, h3, h4, h5, h6, h7, h8, h9, hsc⟩

/-- C2 (confirmed): when the topology precondition fails — differing scene
counts or differing per-scene root structure — the merge step returns an
error and the externally shared registry comes back exactly as it was, so
no mutation is observable to the caller; the primary document itself is a
value the step never rebinds, so it is unchanged by construction. -/
theorem spec_C2 {p c : GLTFDocument} (m : LODMap) (h : topologyOkay p c = false) :
    ∃ e, AddGLTFNodeLOD p m c = (m, Except.error e) :=
  addLOD_mismatch m h

/-- C3 (corrected): on a successful merge step, the chain of each registry
key k gains one appended entry per occurrence of k among the primary's
scene-root positions — the entry being the paired candidate root reparsed
and shifted by the node offset — so the growth is exactly 1 only when k
occurs once among the roots; chains of identifiers that are not scene
roots are unchanged. -/
theorem spec_C3 {p c : GLTFDocument} {m m1 : LODMap} {d : GLTFDocument}
    (h : AddGLTFNodeLOD p m c = (m1, Except.ok d)) :
    (∀ k ch, lodAt m k = some ch →
      lodAt m1 k = some (ch ++ appendedIds p.nodes.length (rootPairs p c) k) ∧
      (ch ++ appendedIds p.nodes.length (rootPairs p c) k).length
        = ch.length + (sceneRootIds p).count k) ∧
    (∀ k, k ∉ sceneRootIds p → lodAt m1 k = lodAt m k) := by
  obtain ⟨hstoi, hfst, heff⟩ := addLOD_registry_effect h
  constructor
  · intro k ch hch
    refine ⟨by rw [heff k, hch]; rfl, ?_⟩
    rw [List.length_append, appendedIds_length p.nodes.length hstoi k, hfst]
  · intro k hk
    rw [heff k, appendedIds_nil_of_not_mem p.nodes.length (by rw [hfst]; exact hk)]
    cases lodAt m k <;> simp

/-- C4 (corrected): merging N topology-matching documents with no
pre-existing LOD data yields a document whose reparsed registry counts
N - 1 LOD levels, provided the first document's scene-root positions are
pairwise distinct and the merged node identifiers are unique (both are
invariants the specification assumes of well-formed inputs; a primary
whose scenes share a root makes the count exceed N - 1). -/
theorem spec_C4 {d0 : GLTFDocument} {rest : List GLTFDocument} {merged : GLTFDocument}
    (hok : MergeDocumentsAsLODs (d0 :: rest) = Except.ok merged)
    (hnolod : ∀ doc ∈ d0 :: rest, ∀ n ∈ doc.nodes,
      extFind n.extensions EXTENSION_MSFT_LOD = none)
    (hroots : (sceneRootIds d0).Nodup)
    (hids : (merged.nodes.map Node.id).Nodup) :
    ∃ reg, ParseDocumentNodeLODs merged = Except.ok reg ∧
      NumberOfNodeLODLevels merged reg = Except.ok ((d0 :: rest).length - 1) := by
  obtain ⟨reg, h1, h2⟩ := mergeAll_levels_core hok hnolod hroots hids
  refine ⟨reg, h1, ?_⟩
  rw [List.length_cons, Nat.add_sub_cancel]
  exact h2

/-- C5 (confirmed): AddIndexOffset returns an empty identifier unchanged;
a non-empty identifier parsing as a non-negative integer n comes back as
the decimal string of n plus the offset; and the operation fails — always
with MalformedIdentifier — exactly when the identifier is non-empty and
does not parse as an integer. -/
theorem spec_C5 (id : String) (off : Nat) :
    (id = "" → AddIndexOffset id off = Except.ok "") ∧
    (∀ n : Int, stoi id = some n → 0 ≤ n →
      AddIndexOffset id off = Except.ok (toString (n + (off : Int)))) ∧
    (AddIndexOffset id off = Except.error MergeError.malformedIdentifier ↔
      id ≠ "" ∧ stoi id = none) ∧
    (∀ e, AddIndexOffset id off = Except.error e → e = MergeError.malformedIdentifier) := by
  refine ⟨?_, ?_, ?_, ?_⟩
  · intro h
    subst h
    rfl
  · intro n hn hpos
    have hne : ¬ id = "" := by
      intro hcon
      rw [hcon] at hn
      exact absurd hn (by intro hx; cases hx)
    unfold AddIndexOffset
    rw [if_neg (by simpa [String.isEmpty_iff] using hne)]
    simp only [hn]
  · constructor
    · intro h
      by_cases hij : id = ""
      · subst hij
        exact absurd h (by intro hx; cases hx)
      · refine ⟨hij, ?_⟩
        unfold AddIndexOffset at h
        rw [if_neg (by simpa [String.isEmpty_iff] using hij)] at h
        cases hst : stoi id with
        | none => rfl
        | some n => simp [hst] at h
    · intro hc
      obtain ⟨hij, hnone⟩ := hc
      unfold AddIndexOffset
      rw [if_neg (by simpa [String.isEmpty_iff] using hij)]
      simp only [hnone]
  · intro e h
    by_cases hij : id = ""
    · subst hij
      exact absurd h (by intro hx; cases hx)
    · unfold AddIndexOffset at h
      rw [if_neg (by simpa [String.isEmpty_iff] using hij)] at h
      cases hst : stoi id with
      | none =>
          simp only [hst] at h
          injection h with h1
          exact h1.symm
      | some n => simp [hst] at h

/-- C6 (corrected): merging an all-empty candidate is never a successful
step — the scene comparison loop runs over zero scene pairs and therefore
never sets the match flag, so the step always fails with TopologyMismatch;
the registry (and, by construction, the primary) are left unchanged, but
no merged document is produced. -/
theorem spec_C6 {p c : GLTFDocument} (m : LODMap)
    (_hb : c.buffers = []) (_hsam : c.samplers = []) (_hbv : c.bufferViews = [])
    (_ha : c.accessors = []) (_him : c.images = []) (_ht : c.textures = [])
    (_hmat : c.materials = []) (_hme : c.meshes = []) (_hn : c.nodes = [])
    (hsc : c.scenes = []) :
    AddGLTFNodeLOD p m c = (m, Except.error MergeError.topologyMismatch) :=
  addLOD_empty_scenes m hsc

/-- C7 (confirmed): serializing a LOD chain yields the empty payload for an
empty chain; against the Node or Material collection it yields the object
mapping "ids" to the chain entries' current positional indices in chain
order (whenever every entry resolves); and any other target kind fails
with UnsupportedEntityKind. -/
theorem spec_C7 (kind : LODTargetKind) (lods : List String) (doc : GLTFDocument) :
    (lods = [] → SerializeExtensionMSFTLod kind lods doc = Except.ok none) ∧
    (lods ≠ [] → (∀ i ∈ lods, (nodesGetIndex doc.nodes i).isSome) →
      SerializeExtensionMSFTLod LODTargetKind.node lods doc
        = Except.ok (some (mkIdsPayload
            (lods.map (fun i => (nodesGetIndex doc.nodes i).getD 0))))) ∧
    (lods ≠ [] → (∀ i ∈ lods, (materialsGetIndex doc.materials i).isSome) →
      SerializeExtensionMSFTLod LODTargetKind.material lods doc
        = Except.ok (some (mkIdsPayload
            (lods.map (fun i => (materialsGetIndex doc.materials i).getD 0))))) ∧
    (lods ≠ [] → SerializeExtensionMSFTLod LODTargetKind.other lods doc
      = Except.error MergeError.unsupportedEntityKind) := by
  refine ⟨?_, ?_, ?_, ?_⟩
  · intro h
    subst h
    exact serialize_empty kind doc
  · intro hne hres
    exact serialize_node_ok lods doc hres hne
  · intro hne hres
    exact serialize_material_ok lods doc hres hne
  · intro hne
    exact serialize_other_err lods doc hne

/-- C8 (confirmed): with a non-empty coverage sequence, the coverage
overload first produces the plain merge result and then rewrites only the
scene-root nodes: each root's extras object gains the coverage sequence
verbatim under the fixed MSFT_screencoverage key at the end, every
pre-existing member staying in place, while every non-root node and the
scene list are untouched; with an empty sequence the merge result is
returned as is (unique node identifiers assumed, per the specification's
well-formedness invariant). -/
theorem spec_C8 {docs : List GLTFDocument} {cov : List Rat}
    {merged final : GLTFDocument}
    (hmerged : MergeDocumentsAsLODs docs = Except.ok merged)
    (hids : (merged.nodes.map Node.id).Nodup)
    (hcovne : cov ≠ [])
    (hfin : MergeDocumentsAsLODsWithCoverage docs cov = Except.ok final) :
    MergeDocumentsAsLODsWithCoverage docs [] = Except.ok merged ∧
    final.scenes = merged.scenes ∧
    List.Forall₂ (fun a b =>
      (a.id ∉ sceneRootIds merged ∧ b = a) ∨
      (a.id ∈ sceneRootIds merged ∧ coveredFrom cov a b))
      merged.nodes final.nodes := by
  have hempty : MergeDocumentsAsLODsWithCoverage docs [] = Except.ok merged := by
    unfold MergeDocumentsAsLODsWithCoverage
    simp only [hmerged]
    rfl
  unfold MergeDocumentsAsLODsWithCoverage at hfin
  simp only [hmerged] at hfin
  rw [if_neg (by simpa [List.length_eq_zero] using hcovne)] at hfin
  have hroots := coverageScenes_to_roots hfin
  refine ⟨hempty, coverageRoots_scenes hroots, ?_⟩
  exact coverageRoots_chars hroots hids

/-- C9 (confirmed): a merge step never appends to the Scene collection —
on success the merged document's scene list is exactly the primary's, with
the same count and the same root-identifier lists, regardless of the
candidate's scenes. -/
theorem spec_C9 {p c : GLTFDocument} {m m1 : LODMap} {d : GLTFDocument}
    (h : AddGLTFNodeLOD p m c = (m1, Except.ok d)) : d.scenes = p.scenes := by
  obtain ⟨x, hs, hmc, hrl, hne⟩ := addLOD_ok_parts h
  exact (mergeAllCollections_parts hmc).1

/-- C10 (corrected): the per-scene comparison skips the element-wise
root-identifier check whenever the candidate scene has exactly one root,
so documents with equal, positive scene counts whose paired scenes are all
single-rooted pass the topology gate even with differing root identifiers
— but at least one scene is required: with zero scenes on both sides
(where the claim's hypotheses hold vacuously) the match flag is never set
and the step still fails with TopologyMismatch. -/
theorem spec_C10 {p c : GLTFDocument} (m : LODMap)
    (hlen : p.scenes.length = c.scenes.length)
    (hne : p.scenes ≠ [])
    (hsingle : ∀ pr ∈ p.scenes.zip c.scenes,
      pr.1.nodes.length = 1 ∧ pr.2.nodes.length = 1) :
    topologyOkay p c = true ∧
      (AddGLTFNodeLOD p m c).2 ≠ Except.error MergeError.topologyMismatch :=
  addLOD_single_root m hlen hne hsingle

/-
  Witnesses: each verified property evaluated at a concrete document pair.
-/

/-- Witness for C1 on the example pair: every appendable collection adds
and the scene list is the primary's. -/
theorem spec_C1_witness :
    exMergedOnce.buffers.length = exPrimary.buffers.length + exCandidate.buffers.length ∧
    exMergedOnce.samplers.length = exPrimary.samplers.length + exCandidate.samplers.length ∧
    exMergedOnce.bufferViews.length
      = exPrimary.bufferViews.length + exCandidate.bufferViews.length ∧
    exMergedOnce.accessors.length = exPrimary.accessors.length + exCandidate.accessors.length ∧
    exMergedOnce.images.length = exPrimary.images.length + exCandidate.images.length ∧
    exMergedOnce.textures.length = exPrimary.textures.length + exCandidate.textures.length ∧
    exMergedOnce.materials.length = exPrimary.materials.length + exCandidate.materials.length ∧
    exMergedOnce.meshes.length = exPrimary.meshes.length + exCandidate.meshes.length ∧
    exMergedOnce.nodes.length = exPrimary.nodes.length + exCandidate.nodes.length ∧
    exMergedOnce.scenes = exPrimary.scenes :=
  @spec_C1 exPrimary exCandidate exLods exLodsOnce exMergedOnce rfl

/-- Witness for C2 at a scene-count mismatch: error out, registry as
given. -/
theorem spec_C2_witness :
    topologyOkay exPrimaryShared exCandidate = false ∧
    ∃ e, AddGLTFNodeLOD exPrimaryShared exLods exCandidate = (exLods, Except.error e) :=
  ⟨rfl, @spec_C2 exPrimaryShared exCandidate exLods rfl⟩

/-- Witness for C3 on the example pair: the chain of root "0" receives the
appended entries, its growth is the root's occurrence count, and a
non-root key is untouched. -/
theorem spec_C3_witness :
    lodAt exLodsOnce "0"
      = some ([] ++ appendedIds exPrimary.nodes.length (rootPairs exPrimary exCandidate) "0") ∧
    ([] ++ appendedIds exPrimary.nodes.length (rootPairs exPrimary exCandidate) "0").length
      = List.length ([] : List String) + (sceneRootIds exPrimary).count "0" ∧
    lodAt exLodsOnce "9" = lodAt exLods "9" := by
  have h := @spec_C3 exPrimary exCandidate exLods exLodsOnce exMergedOnce rfl
  exact ⟨(h.1 "0" [] rfl).1, (h.1 "0" [] rfl).2, h.2 "9" (by decide)⟩

/-- Witness for C4 on the two-document example: one LOD level. -/
theorem spec_C4_witness :
    ∃ reg, ParseDocumentNodeLODs exMergedAll = Except.ok reg ∧
      NumberOfNodeLODLevels exMergedAll reg = Except.ok 1 := by
  have hnolod : ∀ doc ∈ exPrimaryExtras :: [exCandidate], ∀ n ∈ doc.nodes,
      extFind n.extensions EXTENSION_MSFT_LOD = none := by
    intro doc hdoc n hn
    rcases List.mem_cons.mp hdoc with h | hdoc2
    · subst h
      rw [List.mem_singleton.mp hn]
      rfl
    · rcases List.mem_cons.mp hdoc2 with h | hnil
      · subst h
        rw [List.mem_singleton.mp hn]
        rfl
      · cases hnil
  exact @spec_C4 exPrimaryExtras [exCandidate] exMergedAll rfl hnolod (by decide) (by decide)

/-- Witness for C5 on three identifiers: empty, numeric and malformed. -/
theorem spec_C5_witness :
    AddIndexOffset "" 4 = Except.ok "" ∧
    AddIndexOffset "3" 4 = Except.ok "7" ∧
    AddIndexOffset "x" 4 = Except.error MergeError.malformedIdentifier :=
  ⟨(spec_C5 "" 4).1 rfl,
   ((spec_C5 "3" 4).2.1 3 rfl (by decide)).trans rfl,
   (spec_C5 "x" 4).2.2.1.mpr ⟨by decide, rfl⟩⟩

/-- Witness for C6: an all-empty candidate against the example primary. -/
theorem spec_C6_witness :
    AddGLTFNodeLOD exPrimary exLods exEmptyDoc
      = (exLods, Except.error MergeError.topologyMismatch) :=
  @spec_C6 exPrimary exEmptyDoc exLods rfl rfl rfl rfl rfl rfl rfl rfl rfl rfl

/-- Witness for C7: a one-entry chain against the node collection, the
unsupported kind, and the empty chain. -/
theorem spec_C7_witness :
    SerializeExtensionMSFTLod LODTargetKind.node ["0"] exPrimary
      = Except.ok (some (mkIdsPayload [0])) ∧
    SerializeExtensionMSFTLod LODTargetKind.other ["0"] exPrimary
      = Except.error MergeError.unsupportedEntityKind ∧
    SerializeExtensionMSFTLod LODTargetKind.material [] exPrimary = Except.ok none :=
  ⟨((spec_C7 LODTargetKind.node ["0"] exPrimary).2.1 (by decide) (by decide)).trans rfl,
   (spec_C7 LODTargetKind.other ["0"] exPrimary).2.2.2 (by decide),
   (spec_C7 LODTargetKind.material [] exPrimary).1 rfl⟩

/-- Witness for C8 on the two-document example with coverage [100, 50]. -/
theorem spec_C8_witness :
    MergeDocumentsAsLODsWithCoverage [exPrimaryExtras, exCandidate] []
      = Except.ok exMergedAll ∧
    exMergedCov.scenes = exMergedAll.scenes ∧
    List.Forall₂ (fun a b =>
      (a.id ∉ sceneRootIds exMergedAll ∧ b = a) ∨
      (a.id ∈ sceneRootIds exMergedAll ∧ coveredFrom exCoverage a b))
      exMergedAll.nodes exMergedCov.nodes :=
  @spec_C8 [exPrimaryExtras, exCandidate] exCoverage exMergedAll exMergedCov rfl
    (by decide) (fun h => List.noConfusion h) rfl

/-- Witness for C9 on the differing-single-root pair: the candidate's
scene is not appended. -/
theorem spec_C9_witness : exMergedDiff.scenes = exPrimary.scenes :=
  @spec_C9 exPrimary exCandidateDiffRoot exLods exLodsDiff exMergedDiff rfl

/-- Witness for C10 on the differing-single-root pair: the gate passes and
no TopologyMismatch is raised. -/
theorem spec_C10_witness :
    topologyOkay exPrimary exCandidateDiffRoot = true ∧
      (AddGLTFNodeLOD exPrimary exLods exCandidateDiffRoot).2
        ≠ Except.error MergeError.topologyMismatch := by
  have hsingle : ∀ pr ∈ exPrimary.scenes.zip exCandidateDiffRoot.scenes,
      pr.1.nodes.length = 1 ∧ pr.2.nodes.length = 1 := by
    intro pr hpr
    rw [List.mem_singleton.mp hpr]
    exact ⟨rfl, rfl⟩
  exact @spec_C10 exPrimary exCandidateDiffRoot exLods rfl
    (fun h => List.noConfusion h) hsingle

/-
  Counterexamples: the spec sentences the code contradicts, each pinned at
  a concrete input.
-/

/-- Counterexample for C1 as frozen: the merge of the example pair
succeeds, yet the merged scene count is 1, not the sum 1 + 1 = 2 — the
Scene collection does not add. -/
theorem spec_C1_cex :
    (AddGLTFNodeLOD exPrimary exLods exCandidate).2 = Except.ok exMergedOnce ∧
    exMergedOnce.scenes.length = 1 ∧
    exPrimary.scenes.length + exCandidate.scenes.length = 2 :=
  ⟨rfl, rfl, rfl⟩

/-- Counterexample for C3 as frozen: with two scenes sharing root "0", a
successful step grows the chain of the matched root "0" from 0 entries to
2, not by exactly 1. -/
theorem spec_C3_cex :
    (AddGLTFNodeLOD exPrimaryShared exLods exCandidateTwo).2
      = Except.ok exMergedSharedStep ∧
    (AddGLTFNodeLOD exPrimaryShared exLods exCandidateTwo).1 = [("0", ["1", "2"])] ∧
    lodAt exLods "0" = some [] ∧
    sceneRootIds exPrimaryShared = ["0", "0"] :=
  ⟨rfl, rfl, rfl, rfl⟩

/-- Counterexample for C4 as frozen: two topology-matching documents with
no pre-existing LOD data whose primary scenes share a root merge to a
document counting 2 LOD levels, not N - 1 = 1. -/
theorem spec_C4_cex :
    topologyOkay exPrimaryShared exCandidateTwo = true ∧
    (exPrimaryShared.nodes ++ exCandidateTwo.nodes).all
      (fun n => (extFind n.extensions EXTENSION_MSFT_LOD).isNone) = true ∧
    MergeDocumentsAsLODs [exPrimaryShared, exCandidateTwo] = Except.ok exMergedShared ∧
    ParseDocumentNodeLODs exMergedShared = Except.ok exRegShared ∧
    NumberOfNodeLODLevels exMergedShared exRegShared = Except.ok 2 ∧
    2 ≠ [exPrimaryShared, exCandidateTwo].length - 1 :=
  ⟨rfl, rfl, rfl, rfl, rfl, by decide⟩

/-- Counterexample for C6 as frozen: merging the all-empty candidate is
not a successful step — it fails with TopologyMismatch. -/
theorem spec_C6_cex :
    AddGLTFNodeLOD exPrimaryExtras exLods exEmptyDoc
      = (exLods, Except.error MergeError.topologyMismatch) :=
  rfl

/-- Counterexample for C10 as frozen: two documents with equal scene
counts all of whose (zero) corresponding scenes are single-rooted, yet the
merge does not proceed — it fails with TopologyMismatch. -/
theorem spec_C10_cex :
    exEmptyDoc.scenes.length = exEmptyDoc.scenes.length ∧
    exEmptyDoc.scenes.zip exEmptyDoc.scenes = [] ∧
    AddGLTFNodeLOD exEmptyDoc [] exEmptyDoc
      = ([], Except.error MergeError.topologyMismatch) :=
  ⟨rfl, rfl, rfl⟩

end GLTF
